import Mathlib

/-!
Verification development for the crawler-log analysis repository
(`src/utils/data_processor.py` and its callers).  The Python code is
shallowly embedded: the regular expressions of
`DataProcessor.parse_log_line` are hand-compiled into deterministic
scanners (each quantified character class in those patterns is followed
by a character that the class excludes, so the backtracking regex engine
admits exactly one split: greedy maximal munch is faithful; the only
genuine choice point, the optional `(?:\S+\s+)?` prefix, is modelled as
try-with-prefix-then-without, matching the engine's preference order).
Pandas/numpy aggregations are modelled over lists of row records, with
`float64` arithmetic idealised as exact rationals, dates as their
day numbers (a midnight `Timestamp` is order-isomorphic to its day
number), and Python scalars that mix `str` and `int` modelled by
`PyScalar` with Python's cross-type equality (always false).
-/

namespace Crawl

/-! ### Character classes of the regexes (ASCII range, as in the logs) -/

def isSpaceCh (c : Char) : Bool :=
  c == ' ' || c == '\t' || c == '\n' || c == '\r' || c == '\x0b' || c == '\x0c'

/-- Class `[\d.]` of the `ip` group. -/
def isDigitDot (c : Char) : Bool :=
  c.isDigit || c == '.'

/-- Class `\w` (ASCII part). -/
def isWordCh (c : Char) : Bool :=
  c.isAlphanum || c == '_'

/-- Class `[-\w]` of the two ident fields of pattern 1. -/
def isIdentCh (c : Char) : Bool :=
  isWordCh c || c == '-'

/-- Class `[-\d]` of the `bytes` group. -/
def isByteCh (c : Char) : Bool :=
  c == '-' || c.isDigit

/-! ### Scanner combinators -/

/-- One-or-more characters of a class (a greedy `+` whose follow set is
disjoint from the class, hence maximal munch). -/
def tw1 (p : Char → Bool) (l : List Char) : Option (List Char × List Char) :=
  if (l.takeWhile p).isEmpty then none else some (l.takeWhile p, l.dropWhile p)

/-- Zero-or-more characters of a class (`*` before a forced delimiter). -/
def twZ (p : Char → Bool) (l : List Char) : List Char × List Char :=
  (l.takeWhile p, l.dropWhile p)

/-- A single literal character. -/
def expectCh (c : Char) : List Char → Option (List Char)
  | [] => none
  | x :: r => if x = c then some r else none

/-- `(?P<ip>[\d.]+)\s+`, shared by all three patterns. -/
def ipWs (l : List Char) : Option (List Char × List Char) := do
  let p ← tw1 isDigitDot l
  let q ← tw1 isSpaceCh p.2
  pure (p.1, q.2)

/-- The optional `(?:\S+\s+)?` prefix: one non-space token plus spaces. -/
def leadTok (l : List Char) : Option (List Char) := do
  let p ← tw1 (fun c => !isSpaceCh c) l
  let q ← tw1 isSpaceCh p.2
  pure q.2

/-- The named captures the Python code reads out of `match.groupdict()`.
Pattern 3 has no `url` group, so its `url` field is `none` (reading
`data['url']` then raises `KeyError`). -/
structure Caps where
  ip : List Char
  datetime : List Char
  url : Option (List Char)
  status : List Char
  byteCount : List Char
  useragent : List Char
deriving DecidableEq, Repr

/-- Segment `\[(?P<datetime>[^\]]+)\]\s+` of all three patterns: returns
the datetime capture and the rest. -/
def dtSeg (l : List Char) : Option (List Char × List Char) := do
  let r ← expectCh '[' l
  let p ← tw1 (fun c => c != ']') r
  let r ← expectCh ']' p.2
  let q ← tw1 isSpaceCh r
  pure (p.1, q.2)

/-- Segment `"(?P<method>\w+)\s+(?P<url>[^\s"]+)[^"]*"\s+` of patterns 1
and 2: returns the url capture and the rest. -/
def reqSeg (l : List Char) : Option (List Char × List Char) := do
  let r ← expectCh '"' l
  let m ← tw1 isWordCh r
  let w ← tw1 isSpaceCh m.2
  let u ← tw1 (fun c => !isSpaceCh c && c != '"') w.2
  let r ← expectCh '"' (twZ (fun c => c != '"') u.2).2
  let s ← tw1 isSpaceCh r
  pure (u.1, s.2)

/-- Segment `"[^"]+"\s+` of pattern 3 (no method/url capture). -/
def reqSeg3 (l : List Char) : Option (List Char) := do
  let r ← expectCh '"' l
  let q ← tw1 (fun c => c != '"') r
  let r ← expectCh '"' q.2
  let s ← tw1 isSpaceCh r
  pure s.2

/-- Segment `(?P<status>\d+)\s+(?P<bytes>[-\d]+)\s+`: returns the status
and bytes captures and the rest. -/
def numSeg (l : List Char) : Option ((List Char × List Char) × List Char) := do
  let st ← tw1 Char.isDigit l
  let w ← tw1 isSpaceCh st.2
  let bc ← tw1 isByteCh w.2
  let s ← tw1 isSpaceCh bc.2
  pure ((st.1, bc.1), s.2)

/-- Segment `"([^"]*)"\s+` (the referrer field, capture unused). -/
def refSeg (l : List Char) : Option (List Char) := do
  let r ← expectCh '"' l
  let r ← expectCh '"' (twZ (fun c => c != '"') r).2
  let s ← tw1 isSpaceCh r
  pure s.2

/-- Segment `"(?P<useragent>[^"]*)"` ending every pattern: returns the
user-agent capture (the rest of the line is ignored, `re.match` is a
prefix match). -/
def uaSeg (l : List Char) : Option (List Char) := do
  let r ← expectCh '"' l
  let q := twZ (fun c => c != '"') r
  let _ ← expectCh '"' q.2
  pure q.1

/-- Tail shared by patterns 1 and 2:
`\[(?P<datetime>[^\]]+)\]\s+"(?P<method>\w+)\s+(?P<url>[^\s"]+)[^"]*"\s+`
`(?P<status>\d+)\s+(?P<bytes>[-\d]+)\s+"([^"]*)"\s+"(?P<useragent>[^"]*)"`. -/
def tailMU (ip : List Char) (l : List Char) : Option Caps := do
  let d ← dtSeg l
  let u ← reqSeg d.2
  let n ← numSeg u.2
  let r ← refSeg n.2
  let ua ← uaSeg r
  pure { ip := ip, datetime := d.1, url := some u.1, status := n.1.1,
         byteCount := n.1.2, useragent := ua }

/-- Tail of pattern 3:
`\[(?P<datetime>[^\]]+)\]\s+"[^"]+"\s+(?P<status>\d+)\s+(?P<bytes>[-\d]+)`
`\s+"[^"]*"\s+"(?P<useragent>[^"]*)"` — no method/url capture. -/
def tail3 (ip : List Char) (l : List Char) : Option Caps := do
  let d ← dtSeg l
  let r ← reqSeg3 d.2
  let n ← numSeg r
  let r ← refSeg n.2
  let ua ← uaSeg r
  pure { ip := ip, datetime := d.1, url := none, status := n.1.1,
         byteCount := n.1.2, useragent := ua }

/-- Segment `[-\w]+\s+[-\w]+\s+` of pattern 1 (the two ident fields). -/
def identSeg (l : List Char) : Option (List Char) := do
  let a ← tw1 isIdentCh l
  let w ← tw1 isSpaceCh a.2
  let b ← tw1 isIdentCh w.2
  let v ← tw1 isSpaceCh b.2
  pure v.2

/-- Segment `\S+\s+\S+\s+` of pattern 3. -/
def anySeg (l : List Char) : Option (List Char) := do
  let a ← tw1 (fun c => !isSpaceCh c) l
  let w ← tw1 isSpaceCh a.2
  let b ← tw1 (fun c => !isSpaceCh c) w.2
  let v ← tw1 isSpaceCh b.2
  pure v.2

/-- Body of pattern 1 after the optional prefix: ip, two `[-\w]+` ident
fields, then the shared tail. -/
def core1 (l : List Char) : Option Caps := do
  let p ← ipWs l
  let r ← identSeg p.2
  tailMU p.1 r

/-- Body of pattern 2 after the optional prefix: ip, then the shared tail. -/
def core2 (l : List Char) : Option Caps := do
  let p ← ipWs l
  tailMU p.1 p.2

/-- Body of pattern 3 after the optional prefix: ip, two `\S+` fields,
then its tail. -/
def core3 (l : List Char) : Option Caps := do
  let p ← ipWs l
  let r ← anySeg p.2
  tail3 p.1 r

/-- `re.match` of pattern 1: the engine prefers the branch where the
optional prefix is present, falling back to the bare body. -/
def scanP1 (l : List Char) : Option Caps :=
  match leadTok l with
  | some r =>
    match core1 r with
    | some c => some c
    | none => core1 l
  | none => core1 l

/-- `re.match` of pattern 2. -/
def scanP2 (l : List Char) : Option Caps :=
  match leadTok l with
  | some r =>
    match core2 r with
    | some c => some c
    | none => core2 l
  | none => core2 l

/-- `re.match` of pattern 3. -/
def scanP3 (l : List Char) : Option Caps :=
  match leadTok l with
  | some r =>
    match core3 r with
    | some c => some c
    | none => core3 l
  | none => core3 l

/-- Contiguous-substring test (`needle` occurs somewhere in the list). -/
def hasInfix (needle : List Char) : List Char → Bool
  | [] => needle.isEmpty
  | c :: r => needle.isPrefixOf (c :: r) || hasInfix needle r

/-- `re.search(r'googlebot', ua, re.IGNORECASE)`: case-insensitive
substring test. -/
def containsGB (ua : List Char) : Bool :=
  hasInfix "googlebot".toList (ua.map Char.toLower)

/-! ### `datetime.strptime` for the two accepted formats -/

def digitVal (c : Char) : Nat := c.toNat - '0'.toNat

/-- A one-or-two digit numeric directive of `_strptime` (`%d`, `%H`, `%M`,
`%S`): a two-digit read is taken when its value passes `ok2`, otherwise a
single digit passing `ok1`. -/
def parseNum2 (ok2 ok1 : Nat → Bool) : List Char → Option (Nat × List Char)
  | c1 :: c2 :: r =>
    if c1.isDigit && c2.isDigit && ok2 (10 * digitVal c1 + digitVal c2) then
      some (10 * digitVal c1 + digitVal c2, r)
    else if c1.isDigit && ok1 (digitVal c1) then some (digitVal c1, c2 :: r)
    else none
  | [c1] => if c1.isDigit && ok1 (digitVal c1) then some (digitVal c1, []) else none
  | [] => none

def monthAbbrs : List String :=
  ["jan", "feb", "mar", "apr", "may", "jun",
   "jul", "aug", "sep", "oct", "nov", "dec"]

/-- `%b`: a three-letter month abbreviation, case-insensitive. -/
def parseMonth : List Char → Option (Nat × List Char)
  | c1 :: c2 :: c3 :: r =>
    let s := String.mk [c1.toLower, c2.toLower, c3.toLower]
    match monthAbbrs.indexOf? s with
    | some i => some (i + 1, r)
    | none => none
  | _ => none

/-- `%Y`: exactly four digits. -/
def parseYear4 : List Char → Option (Nat × List Char)
  | c1 :: c2 :: c3 :: c4 :: r =>
    if c1.isDigit && c2.isDigit && c3.isDigit && c4.isDigit then
      some (1000 * digitVal c1 + 100 * digitVal c2 + 10 * digitVal c3 + digitVal c4, r)
    else none
  | _ => none

/-- `%z`: `[+-]\d\d:?[0-5]\d(:?[0-5]\d(\.\d{1,6})?)?` or `Z`; the
constructed `timezone` additionally requires an offset below 24 hours. -/
def parseTz (l : List Char) : Option (List Char) :=
  match l with
  | 'Z' :: r => some r
  | s :: d1 :: d2 :: r =>
    if (s == '+' || s == '-') && d1.isDigit && d2.isDigit then
      let hh := 10 * digitVal d1 + digitVal d2
      let r1 := match r with
        | ':' :: r2 => r2
        | _ => r
      match r1 with
      | m1 :: m2 :: r2 =>
        if m1.isDigit && m2.isDigit && 10 * digitVal m1 + digitVal m2 ≤ 59 &&
            hh < 24 then
          let r3 := match r2 with
            | ':' :: s1 :: s2 :: r4 =>
              if s1.isDigit && s2.isDigit && 10 * digitVal s1 + digitVal s2 ≤ 59 then
                r4
              else ':' :: s1 :: s2 :: r4
            | s1 :: s2 :: r4 =>
              if s1.isDigit && s2.isDigit && 10 * digitVal s1 + digitVal s2 ≤ 59 then
                r4
              else s1 :: s2 :: r4
            | r4 => r4
          some r3
        else none
      | _ => none
    else none
  | _ => none

structure DTm where
  y : Nat
  mo : Nat
  d : Nat
  hh : Nat
  mi : Nat
  ss : Nat
deriving DecidableEq, Repr

def isLeap (y : Nat) : Bool :=
  y % 4 == 0 && (y % 100 != 0 || y % 400 == 0)

def daysInMonth (y m : Nat) : Nat :=
  if m == 2 then (if isLeap y then 29 else 28)
  else if m == 4 || m == 6 || m == 9 || m == 11 then 30
  else 31

/-- The `datetime` constructor's range checks (`MINYEAR ≤ y`, a real
calendar day, seconds below 60). -/
def validDT (t : DTm) : Bool :=
  1 ≤ t.y && 1 ≤ t.d && t.d ≤ daysInMonth t.y t.mo && t.ss ≤ 59

/-- The `%d/%b/%Y` part: day, month and year with literal slashes. -/
def dateSeg (l : List Char) : Option ((Nat × Nat × Nat) × List Char) := do
  let d ← parseNum2 (fun v => 1 ≤ v && v ≤ 31) (fun v => 1 ≤ v) l
  let r ← expectCh '/' d.2
  let mo ← parseMonth r
  let r ← expectCh '/' mo.2
  let y ← parseYear4 r
  pure ((y.1, mo.1, d.1), y.2)

/-- The `:%H:%M:%S` part: literal colons then hour, minute, second. -/
def clockSeg (l : List Char) : Option ((Nat × Nat × Nat) × List Char) := do
  let r ← expectCh ':' l
  let hh ← parseNum2 (fun v => v ≤ 23) (fun _ => true) r
  let r ← expectCh ':' hh.2
  let mi ← parseNum2 (fun v => v ≤ 59) (fun _ => true) r
  let r ← expectCh ':' mi.2
  let ss ← parseNum2 (fun v => v ≤ 61) (fun _ => true) r
  pure ((hh.1, mi.1, ss.1), ss.2)

/-- The common `%d/%b/%Y:%H:%M:%S` part of both formats. -/
def parseDTcommon (l : List Char) : Option (DTm × List Char) := do
  let d ← dateSeg l
  let c ← clockSeg d.2
  pure ({ y := d.1.1, mo := d.1.2.1, d := d.1.2.2,
          hh := c.1.1, mi := c.1.2.1, ss := c.1.2.2 }, c.2)

/-- `strptime(s, '%d/%b/%Y:%H:%M:%S %z')` (full match required). -/
def parseDT1 (l : List Char) : Option DTm := do
  let t ← parseDTcommon l
  let w ← tw1 isSpaceCh t.2
  let r ← parseTz w.2
  if r.isEmpty && validDT t.1 then some t.1 else none

/-- `strptime(s, '%d/%b/%Y:%H:%M:%S')` (full match required). -/
def parseDT0 (l : List Char) : Option DTm := do
  let t ← parseDTcommon l
  if t.2.isEmpty && validDT t.1 then some t.1 else none

/-- The code tries the with-timezone format first and falls back to the
naive format on `ValueError`. -/
def parseDTany (l : List Char) : Option DTm :=
  match parseDT1 l with
  | some t => some t
  | none => parseDT0 l

/-! ### `parse_log_line` -/

def fmt2 (n : Nat) : String :=
  if n < 10 then "0" ++ toString n else toString n

structure PEvent where
  url : String
  dateY : Nat
  dateM : Nat
  dateD : Nat
  time : String
  status : String
  user_agent : String
deriving DecidableEq, Repr

/-- `dt.strftime('%H:%M:%S')`. -/
def timeStr (t : DTm) : String :=
  fmt2 t.hh ++ ":" ++ fmt2 t.mi ++ ":" ++ fmt2 t.ss

/-- The loop body once a pattern has matched: `some r` means the Python
function returns `r` (an event, or `None` after a datetime failure or the
`KeyError` on a missing `url` group caught by the outer handler);
`none` means the googlebot check failed and the loop continues. -/
def applyPat (c : Caps) : Option (Option PEvent) :=
  if containsGB c.useragent then
    match parseDTany c.datetime with
    | none => some none
    | some t =>
      match c.url with
      | none => some none
      | some u =>
        some (some { url := String.mk u, dateY := t.y, dateM := t.mo,
                     dateD := t.d, time := timeStr t,
                     status := String.mk c.status,
                     user_agent := String.mk c.useragent })
  else none

def parseAfter2 (l : List Char) : Option PEvent :=
  match scanP3 l with
  | some c => (applyPat c).getD none
  | none => none

def parseAfter1 (l : List Char) : Option PEvent :=
  match scanP2 l with
  | some c =>
    match applyPat c with
    | some r => r
    | none => parseAfter2 l
  | none => parseAfter2 l

/-- `DataProcessor.parse_log_line`: try the three patterns in order; a
structural match whose user agent fails the googlebot check falls
through to the next pattern; the first googlebot match decides the
result. -/
def parseLogLine (s : String) : Option PEvent :=
  let l := s.toList
  match scanP1 l with
  | some c =>
    match applyPat c with
    | some r => r
    | none => parseAfter1 l
  | none => parseAfter1 l

/-- Instrumented version recording which patterns `re.match` is invoked
on (1-based indices, in order). -/
def parseLogLineTrace (s : String) : Option PEvent × List Nat :=
  let l := s.toList
  match scanP1 l with
  | some c =>
    match applyPat c with
    | some r => (r, [1])
    | none =>
      match scanP2 l with
      | some c2 =>
        match applyPat c2 with
        | some r => (r, [1, 2])
        | none => (parseAfter2 l, [1, 2, 3])
      | none => (parseAfter2 l, [1, 2, 3])
  | none =>
    match scanP2 l with
    | some c2 =>
      match applyPat c2 with
      | some r => (r, [1, 2])
      | none => (parseAfter2 l, [1, 2, 3])
    | none => (parseAfter2 l, [1, 2, 3])

/-! ### Calendar arithmetic

A pandas midnight `Timestamp` is represented by its proleptic-Gregorian
day number (rata die, day 1 = 0001-01-01); ordering and equality of such
timestamps coincide with those of the day numbers. -/

def daysBeforeMonth (y m : Nat) : Nat :=
  [0, 31, 59, 90, 120, 151, 181, 212, 243, 273, 304, 334].getD (m - 1) 0 +
    (if 3 ≤ m && isLeap y then 1 else 0)

/-- Rata-die day number of a calendar date. -/
def rataDie (y m d : Nat) : Nat :=
  365 * (y - 1) + (y - 1) / 4 - (y - 1) / 100 + (y - 1) / 400 +
    daysBeforeMonth y m + d

/-- `Timestamp.day_name()`: day 1 (0001-01-01) is a Monday. -/
def weekdayName (n : Nat) : String :=
  ["Monday", "Tuesday", "Wednesday", "Thursday", "Friday", "Saturday",
   "Sunday"].getD ((n - 1) % 7) ""

def pad4 (n : Nat) : String :=
  if n < 10 then "000" ++ toString n
  else if n < 100 then "00" ++ toString n
  else if n < 1000 then "0" ++ toString n
  else toString n

/-- `strftime('%Y-%m')`. -/
def fmtYM (y m : Nat) : String :=
  pad4 y ++ "-" ++ fmt2 m

/-- A pandas `Timestamp`, as produced by `pd.to_datetime` on a
`datetime.date`: the date at midnight. -/
structure TStamp where
  day : Nat
  hour : Nat
  minute : Nat
  second : Nat
deriving DecidableEq, Repr

/-- `pd.to_datetime` applied to a `datetime.date` value: midnight of
that day. -/
def pdToDatetime (day : Nat) : TStamp :=
  { day := day, hour := 0, minute := 0, second := 0 }

/-! ### `load_data` -/

/-- One row of the event table built by `DataProcessor.load_data`,
including the derived columns added at lines 94-97. -/
structure Row where
  url : String
  date : Nat
  time : String
  status : String
  user_agent : String
  month : String
  day_of_week : String
  hour : Nat
deriving DecidableEq, Repr

/-- The derived-column block of `load_data`: `date` is converted with
`pd.to_datetime` (midnight), `month` and `day_of_week` come from that
converted date, and `hour` is `df['date'].dt.hour` — the hour of the
midnight timestamp. -/
def mkRow (e : PEvent) : Row :=
  let day := rataDie e.dateY e.dateM e.dateD
  { url := e.url, date := (pdToDatetime day).day, time := e.time,
    status := e.status, user_agent := e.user_agent,
    month := fmtYM e.dateY e.dateM,
    day_of_week := weekdayName day,
    hour := (pdToDatetime day).hour }

/-- Python `str.strip()` (ASCII whitespace). -/
def pyStrip (l : List Char) : List Char :=
  ((l.dropWhile isSpaceCh).reverse.dropWhile isSpaceCh).reverse

/-- `content.split('\n')`: split at every newline, keeping empty pieces. -/
def splitNl (l : List Char) : List (List Char) :=
  l.foldr
    (fun c acc =>
      if c = '\n' then [] :: acc else (c :: acc.headD []) :: acc.tail)
    [[]]

/-- The line list of `load_data`: split on newlines, strip each line,
drop the empty ones. -/
def procLines (content : String) : List String :=
  (((splitNl content.toList).map pyStrip).filter (fun l => !l.isEmpty)).map
    (fun l => String.mk l)

structure LoadOk where
  total : Nat
  matched : Nat
  rows : List Row
deriving DecidableEq, Repr

inductive LoadErr where
  | emptyFile : LoadErr
  | noEntries (total invalid : Nat) (sample : List String) : LoadErr
deriving DecidableEq, Repr

/-- `DataProcessor.load_data` on decoded text: split into stripped
non-empty lines, parse each, fail if the file is empty or if no line
yields a googlebot entry (the error carries the total and invalid line
counts and the first five lines), otherwise build the event table with
the derived columns.  `total`/`matched` are the counts reported by the
`st.info` message. -/
def load_data (content : String) : Except LoadErr LoadOk :=
  let lines := procLines content
  if lines.isEmpty then .error .emptyFile
  else
    let parsed := lines.filterMap parseLogLine
    if parsed.isEmpty then
      .error (.noEntries lines.length (lines.length - parsed.length) (lines.take 5))
    else
      .ok { total := lines.length, matched := parsed.length,
            rows := parsed.map mkRow }

/-! ### Byte decoding (`content.decode('utf-8', errors='replace')`)

Bytes are `Nat`s below 256 and decoded code points are `Nat`s; `0xFFFD`
is the replacement character.  One decoding step classifies the head of
the byte list exactly as CPython's UTF-8 decoder does (C0/C1/F5-FF are
invalid lead bytes; E0/ED/F0/F4 constrain their first continuation
byte); on a malformed sequence the bytes up to the offending one are
consumed and one replacement character is produced. -/

inductive UStep where
  | done : UStep
  | ch (cp : Nat) (rest : List Nat) : UStep
  | bad (rest : List Nat) : UStep
deriving DecidableEq, Repr

def isCont (b : Nat) : Bool := 0x80 ≤ b && b ≤ 0xBF

/-- Range of the first continuation byte after a three- or four-byte
lead, per the lead byte (excludes overlong encodings, surrogates and
code points above 0x10FFFF). -/
def contLo (b0 : Nat) : Nat :=
  if b0 == 0xE0 then 0xA0 else if b0 == 0xF0 then 0x90 else 0x80

def contHi (b0 : Nat) : Nat :=
  if b0 == 0xED then 0x9F else if b0 == 0xF4 then 0x8F else 0xBF

def utf8Step : List Nat → UStep
  | [] => .done
  | b0 :: r =>
    if b0 < 0x80 then .ch b0 r
    else if 0xC2 ≤ b0 && b0 ≤ 0xDF then
      match r with
      | b1 :: r1 =>
        if isCont b1 then .ch ((b0 - 0xC0) * 64 + (b1 - 0x80)) r1
        else .bad r
      | [] => .bad []
    else if 0xE0 ≤ b0 && b0 ≤ 0xEF then
      match r with
      | b1 :: r1 =>
        if contLo b0 ≤ b1 && b1 ≤ contHi b0 then
          match r1 with
          | b2 :: r2 =>
            if isCont b2 then
              .ch ((b0 - 0xE0) * 4096 + (b1 - 0x80) * 64 + (b2 - 0x80)) r2
            else .bad r1
          | [] => .bad []
        else .bad r
      | [] => .bad []
    else if 0xF0 ≤ b0 && b0 ≤ 0xF4 then
      match r with
      | b1 :: r1 =>
        if contLo b0 ≤ b1 && b1 ≤ contHi b0 then
          match r1 with
          | b2 :: r2 =>
            if isCont b2 then
              match r2 with
              | b3 :: r3 =>
                if isCont b3 then
                  .ch ((b0 - 0xF0) * 262144 + (b1 - 0x80) * 4096 +
                       (b2 - 0x80) * 64 + (b3 - 0x80)) r3
                else .bad r2
              | [] => .bad []
            else .bad r1
          | [] => .bad []
        else .bad r
      | [] => .bad []
    else .bad r

/-- Decoding with `errors='replace'`, fuel-driven (the fuel is the byte
count, which bounds the number of steps since every step consumes at
least one byte). -/
def decodeReplaceGo : Nat → List Nat → List Nat
  | 0, _ => []
  | n + 1, bs =>
    match utf8Step bs with
    | .done => []
    | .ch cp r => cp :: decodeReplaceGo n r
    | .bad r => 0xFFFD :: decodeReplaceGo n r

/-- `bytes.decode('utf-8', errors='replace')`: total, never raises. -/
def decodeReplace (bs : List Nat) : List Nat :=
  decodeReplaceGo bs.length bs

/-- Strict UTF-8 decoding (what `bytes.decode('utf-8')` with no error
handler would do): `none` on the first malformed sequence. -/
def decodeStrictGo : Nat → List Nat → Option (List Nat)
  | 0, _ => some []
  | n + 1, bs =>
    match utf8Step bs with
    | .done => some []
    | .ch cp r => (decodeStrictGo n r).map (cp :: ·)
    | .bad _ => none

def decodeStrict (bs : List Nat) : Option (List Nat) :=
  decodeStrictGo bs.length bs

def cpToString (cps : List Nat) : String :=
  String.mk (cps.map Char.ofNat)

def asciiBytes (s : String) : List Nat :=
  s.toList.map Char.toNat

/-- The `isinstance(content, bytes)` branch of `load_data`: decode with
`errors='replace'`, then process the text. -/
def load_data_bytes (bs : List Nat) : Except LoadErr LoadOk :=
  load_data (cpToString (decodeReplace bs))

/-! ### Python scalar equality

The `status` column holds strings (the regex capture), and
`get_url_patterns` compares it with the integer `200`; Python equality
between values of different types is `False`. -/

inductive PyScalar where
  | str (s : String) : PyScalar
  | int (n : Int) : PyScalar
deriving DecidableEq, Repr

def pyEq : PyScalar → PyScalar → Bool
  | .str a, .str b => a == b
  | .int a, .int b => a == b
  | _, _ => false

/-! ### `get_url_patterns` -/

def natsMin : List Nat → Nat
  | [] => 0
  | x :: xs => xs.foldl Nat.min x

def natsMax : List Nat → Nat
  | [] => 0
  | x :: xs => xs.foldl Nat.max x

/-- One row of the `url_patterns` frame (after the column renaming at
lines 157-160 and the `avg_daily_crawls` column). -/
structure UPat where
  url : String
  total_crawls : Nat
  first_crawl : Nat
  latest_crawl : Nat
  unique_days : Nat
  months_active : Nat
  success_rate : ℚ
  avg_daily_crawls : ℚ
deriving DecidableEq, Repr

/-- The per-group aggregation of `get_url_patterns`: counts, min/max and
nunique over `date`, nunique over `month`, and
`(status == 200).mean() * 100` where the comparison is Python equality
of the string cell against the integer 200. -/
def mkUPat (df : List Row) (u : String) : UPat :=
  let g := df.filter (fun r => r.url == u)
  let days := (g.map Row.date).dedup.length
  { url := u
    total_crawls := g.length
    first_crawl := natsMin (g.map Row.date)
    latest_crawl := natsMax (g.map Row.date)
    unique_days := days
    months_active := (g.map Row.month).dedup.length
    success_rate :=
      ((g.countP (fun r => pyEq (.str r.status) (.int 200)) : ℚ) / (g.length : ℚ)) * 100
    avg_daily_crawls := (g.length : ℚ) / (days : ℚ) }

/-- The optional inclusive date filter at lines 144-147. -/
def dateFilter (df : List Row) (start_date end_date : Option Nat) : List Row :=
  let df := match start_date with
    | some d => df.filter (fun r => d ≤ r.date)
    | none => df
  match end_date with
  | some d => df.filter (fun r => r.date ≤ d)
  | none => df

/-- `groupby('url')` output order: group keys sorted ascending. -/
def sortedUrls (df : List Row) : List String :=
  List.insertionSort (· ≤ ·) (df.map Row.url).dedup

/-- The grouped frame before the sort step. -/
def groupedUPats (df : List Row) (start_date end_date : Option Nat) : List UPat :=
  let dff := dateFilter df start_date end_date
  (sortedUrls dff).map (mkUPat dff)

/-- Columns of the `url_patterns` frame, for the
`sort_by in url_patterns.columns` test. -/
def upatCols : List String :=
  ["url", "total_crawls", "first_crawl", "latest_crawl", "unique_days",
   "months_active", "success_rate", "avg_daily_crawls"]

/-- Sort key of a `url_patterns` column (string and numeric columns in
one linearly ordered type; date columns order by day number). -/
def upKey (f : String) (u : UPat) : Lex (Sum String ℚ) :=
  toLex (if f = "url" then Sum.inl u.url
    else Sum.inr (if f = "total_crawls" then (u.total_crawls : ℚ)
      else if f = "first_crawl" then (u.first_crawl : ℚ)
      else if f = "latest_crawl" then (u.latest_crawl : ℚ)
      else if f = "unique_days" then (u.unique_days : ℚ)
      else if f = "months_active" then (u.months_active : ℚ)
      else if f = "success_rate" then u.success_rate
      else u.avg_daily_crawls))

/-- `sort_values(by, ascending=...)` on one column: pandas computes the
ascending argsort and, for `ascending=False`, reverses it. -/
def sortValuesBy (f : String) (ascending : Bool) (l : List UPat) : List UPat :=
  let asc := List.insertionSort (fun a b => upKey f a ≤ upKey f b) l
  if ascending then asc else asc.reverse

/-- `DataProcessor.get_url_patterns`: filter by the optional inclusive
date range, group by url with the aggregated metrics, then sort by the
requested column when it exists (otherwise leave the grouped order). -/
def get_url_patterns (df : List Row) (start_date end_date : Option Nat)
    (sort_by : String) (ascending : Bool) : List UPat :=
  let base := groupedUPats df start_date end_date
  if sort_by ∈ upatCols then sortValuesBy sort_by ascending base else base

/-! ### `_calculate_gini` -/

def minQ : List ℚ → ℚ
  | [] => 0
  | x :: xs => xs.foldl min x

/-- The sum `Σ((2·index − n − 1) · value)` over the sorted array with
1-based index, divided by `n · Σ value`. -/
def giniRatio (s : List ℚ) : ℚ :=
  let n : ℚ := s.length
  (s.enum.map (fun p => (2 * ((p.1 : ℚ) + 1) - n - 1) * p.2)).sum / (n * s.sum)

/-- `DataProcessor._calculate_gini`: shift only when the minimum is
negative, add `1e-7` to every entry, sort ascending, then the classic
ratio. -/
def _calculate_gini (l : List ℚ) : ℚ :=
  giniRatio (List.insertionSort (· ≤ ·)
    ((if minQ l < 0 then l.map (fun x => x - minQ l) else l).map
      (fun x => x + 1 / 10000000)))

/-- Modelled from the spec's wording of the Gini formula ("shift so the
minimum is ≥ 0, add a small positive epsilon (1e-7) to every value to
avoid division by zero, sort ascending, then compute
Σ((2·rank − n − 1)·value) / (n·Σvalue) with 1-based rank"): the shift
subtracts `min(minimum, 0)` so that the minimum becomes nonnegative. -/
def giniSpecFormula (l : List ℚ) : ℚ :=
  giniRatio (List.insertionSort (· ≤ ·)
    ((l.map (fun x => x - min (minQ l) 0)).map (fun x => x + 1 / 10000000)))

/-! ### `compare_time_periods` -/

/-- Hour histogram `groupby('hour').size()` (keys ascending). -/
def hourCounts (p : List Row) : List (Nat × Nat) :=
  (List.insertionSort (· ≤ ·) (p.map Row.hour).dedup).map
    (fun h => (h, p.countP (fun r => r.hour == h)))

/-- The per-period metrics computed by `compare_time_periods` that the
analysis below uses (`avg_daily_crawls` is `NaN`, here `none`, on an
empty slice). -/
structure PeriodMetrics where
  total_crawls : Nat
  unique_urls : Nat
  avg_daily_crawls : Option ℚ
  hourly_distribution : List (Nat × Nat)
deriving DecidableEq, Repr

def mkMetrics (p : List Row) : PeriodMetrics :=
  { total_crawls := p.length
    unique_urls := (p.map Row.url).dedup.length
    avg_daily_crawls :=
      if p.isEmpty then none
      else some ((p.length : ℚ) / ((p.map Row.date).dedup.length : ℚ))
    hourly_distribution := hourCounts p }

/-- `DataProcessor.compare_time_periods`: slice the table twice by
inclusive date range and compute the metrics of each slice. -/
def compare_time_periods (df : List Row) (s1 e1 s2 e2 : Nat) :
    (PeriodMetrics × PeriodMetrics) × List Row × List Row :=
  let p1 := df.filter (fun r => s1 ≤ r.date && r.date ≤ e1)
  let p2 := df.filter (fun r => s2 ≤ r.date && r.date ≤ e2)
  ((mkMetrics p1, mkMetrics p2), p1, p2)

/-! ### `calculate_crawl_frequency` -/

structure FreqRow where
  date : Nat
  url : String
  crawl_count : ℚ
deriving DecidableEq, Repr

/-- Lexicographic order on the `(date, url)` group keys, the order
`groupby(['date', 'url'])` emits. -/
def pairLe (a b : Nat × String) : Prop :=
  a.1 < b.1 ∨ (a.1 = b.1 ∧ a.2 ≤ b.2)

instance : DecidableRel pairLe := fun a b => by
  unfold pairLe
  infer_instance

/-- `DataProcessor.calculate_crawl_frequency`: empty frame for `None` or
an empty table; otherwise group by `(date, url)`, count each group
(cast to float64), and sort the result by date. -/
def calculate_crawl_frequency (odf : Option (List Row)) : List FreqRow :=
  match odf with
  | none => []
  | some df =>
    if df.isEmpty then []
    else
      let pairs := df.map (fun r => (r.date, r.url))
      let keys := List.insertionSort pairLe pairs.dedup
      let rows := keys.map (fun k =>
        { date := k.1, url := k.2, crawl_count := (pairs.count k : ℚ) : FreqRow })
      List.insertionSort (fun a b => a.date ≤ b.date) rows

/-! ### The decomposition part of `perform_statistical_analysis` -/

/-- `df.groupby('date').size()`: distinct dates ascending with their
row counts. -/
def dailySeries (df : List Row) : List (Nat × Nat) :=
  (List.insertionSort (· ≤ ·) (df.map Row.date).dedup).map
    (fun d => (d, df.countP (fun r => r.date == d)))

/-- `daily_series.asfreq('D', fill_value=0.0)`: reindex to every day
between the first and last observed date, missing days becoming `0`. -/
def calendarFill (daily : List (Nat × Nat)) : List ℚ :=
  match daily.head?, daily.getLast? with
  | some p, some q =>
    (List.range (q.1 + 1 - p.1)).map (fun i =>
      match daily.find? (fun e => e.1 == p.1 + i) with
      | some e => (e.2 : ℚ)
      | none => 0)
  | _, _ => []

/-- The centred 7-term moving average `statsmodels` uses as the trend for
an odd period: defined at indices `3 ≤ i ≤ n-4`, `NaN` (`none`) at the
three edge positions on each side. -/
def movingTrend (xs : List ℚ) : List (Option ℚ) :=
  (List.range xs.length).map (fun i =>
    if 3 ≤ i ∧ i + 3 < xs.length then some (((xs.drop (i - 3)).take 7).sum / 7)
    else none)

/-- Per-residue nan-means of the detrended series (`seasonal_mean`). -/
def classMeans (detr : List (Option ℚ)) : List (Option ℚ) :=
  (List.range 7).map (fun k =>
    let vals := detr.enum.filterMap (fun p => if p.1 % 7 == k then p.2 else none)
    if vals.isEmpty then none else some (vals.sum / (vals.length : ℚ)))

/-- Demeaned period averages tiled over the series
(`period_averages -= period_averages.mean(); np.tile(...)`); a `NaN`
class mean contaminates the mean and hence every seasonal value. -/
def seasonalFromMeans (cm : List (Option ℚ)) (n : Nat) : List (Option ℚ) :=
  let mu : Option ℚ :=
    if cm.all Option.isSome then some ((cm.filterMap id).sum / 7) else none
  (List.range n).map (fun i =>
    match cm.getD (i % 7) none, mu with
    | some m, some v => some (m - v)
    | _, _ => none)

/-- `statsmodels.tsa.seasonal.seasonal_decompose(x, period=7)` (additive
model): requires two complete cycles, trend by centred moving average,
seasonal by demeaned period averages, residual as the remainder. -/
def seasonal_decompose (xs : List ℚ) :
    Except Unit (List (Option ℚ) × List (Option ℚ) × List (Option ℚ)) :=
  if xs.length < 14 then .error ()
  else
    let tr := movingTrend xs
    let detr := (List.range xs.length).map (fun i =>
      (tr.getD i none).map (fun t => xs.getD i 0 - t))
    let seas := seasonalFromMeans (classMeans detr) xs.length
    let resid := (List.range xs.length).map (fun i =>
      match tr.getD i none, seas.getD i none with
      | some t, some s => some (xs.getD i 0 - t - s)
      | _, _ => none)
    .ok (tr, seas, resid)

/-- The decomposition section of `perform_statistical_analysis` (lines
185-197): empty trend/seasonal/residual series unless at least 14
distinct days are observed, in which case the zero-filled calendar
series is decomposed with period 7; any decomposition failure is
swallowed, leaving the empty series. -/
def performDecomposition (df : List Row) :
    List (Option ℚ) × List (Option ℚ) × List (Option ℚ) :=
  let daily := dailySeries df
  if 14 ≤ daily.length then
    match seasonal_decompose (calendarFill daily) with
    | .ok t => t
    | .error _ => ([], [], [])
  else ([], [], [])

/-! ### Concrete inputs used by the evaluations below -/

/-- Hour-of-day read off a `'HH:MM:SS'` string. -/
def hourOfTimeStr (s : String) : Nat :=
  match s.toList with
  | c1 :: c2 :: _ => 10 * digitVal c1 + digitVal c2
  | _ => 0

/-- A well-formed combined-log line with a googlebot user agent whose
request happened at 14:23:45. -/
def lineAfternoon : String :=
  "1.2.3.4 - - [05/Feb/2024:14:23:45 +0000] \"GET /page HTTP/1.1\" 200 512 \"-\" \"Mozilla/5.0 (compatible; Googlebot/2.1)\""

/-! ## Theorems -/

/-- Claim C1 (code bug): the spec says the derived `hour` field is the
hour-of-day extracted from `time`, but `load_data` computes
`df['date'].dt.hour` on the midnight-normalised date column, so every
row gets hour 0.  On a log line stamped 14:23:45 the produced row
carries `time = "14:23:45"` yet `hour = 0`, while the hour extracted
from `time` is 14. -/
theorem load_data_hour_from_date_not_time :
    (load_data lineAfternoon).toOption.map
        (fun ok => ok.rows.map (fun r => (r.time, r.hour, hourOfTimeStr r.time))) =
      some [("14:23:45", 0, 14)] := by
  decide

/-- Every row `load_data` produces has `hour = 0`: the column is derived
from the midnight timestamp, never from `time`. -/
theorem load_data_hour_always_zero (content : String) (ok : LoadOk)
    (h : load_data content = .ok ok) : ∀ r ∈ ok.rows, r.hour = 0 := by
  intro r hr
  have h2 : ok.rows = ((procLines content).filterMap parseLogLine).map mkRow := by
    simp only [load_data] at h
    split at h
    · cases h
    · split at h
      · cases h
      · cases h
        rfl
  rw [h2] at hr
  simp only [List.mem_map] at hr
  obtain ⟨e, _, rfl⟩ := hr
  rfl

/-- A table with a single row whose `status` is the string "200". -/
def rowOk : Row :=
  { url := "/a", date := 10, time := "00:00:00", status := "200",
    user_agent := "gb", month := "2024-01", day_of_week := "Monday", hour := 0 }

/-- Claim C3 (code bug): `get_url_patterns` computes
`(status == 200).mean() * 100` with `status` a string column, so the
comparison against the integer 200 is always false and `success_rate`
is 0 even for a group whose every row has status "200" (the spec says
it should be 100). -/
theorem get_url_patterns_success_rate_zero :
    rowOk.status = "200" ∧
      (get_url_patterns [rowOk] none none "total_crawls" false).map
          UPat.success_rate = [0] := by
  refine ⟨rfl, ?_⟩
  simp only [get_url_patterns, groupedUPats, dateFilter, sortedUrls, mkUPat,
    sortValuesBy, upatCols, rowOk, pyEq, List.insertionSort, List.orderedInsert,
    List.dedup, List.filter, List.map, List.countP, List.countP.go,
    List.pairwise_cons, List.mem_cons, List.mem_singleton]
  norm_num

/-! ### Claim C6: the Gini coefficient -/

lemma foldl_min_nonneg (x : ℚ) (xs : List ℚ) (hx : 0 ≤ x)
    (hxs : ∀ y ∈ xs, 0 ≤ y) : 0 ≤ xs.foldl min x := by
  induction xs generalizing x with
  | nil => exact hx
  | cons y ys ih =>
    exact ih _ (le_min hx (hxs y (by simp))) (fun z hz => hxs z (by simp [hz]))

lemma minQ_nonneg {l : List ℚ} (h : ∀ x ∈ l, 0 ≤ x) : 0 ≤ minQ l := by
  cases l with
  | nil => exact le_refl 0
  | cons x xs =>
    exact foldl_min_nonneg x xs (h x (by simp)) (fun y hy => h y (by simp [hy]))

lemma giniRatio_four_equal (x : ℚ) : giniRatio [x, x, x, x] = 0 := by
  unfold giniRatio
  have hnum : ((List.enum [x, x, x, x]).map
      (fun p => (2 * ((p.1 : ℚ) + 1) - (4 : Nat) - 1) * p.2)).sum = 0 := by
    simp [List.enum, List.enumFrom]
    ring
  simp only [List.length_cons, List.length_nil] at hnum ⊢
  rw [hnum, zero_div]

/-- Claim C6: for four equal positive counts `_calculate_gini` is 0
(hence within 1e-4 of 0), and on any non-empty non-negative array it
computes exactly the spec's formula (shift so the minimum is ≥ 0, add
1e-7, sort ascending, Σ((2·rank−n−1)·value)/(n·Σvalue)). -/
theorem calculate_gini_spec :
    (∀ c : ℚ, 0 < c → |_calculate_gini [c, c, c, c]| ≤ 1 / 10000) ∧
    (∀ l : List ℚ, (∀ x ∈ l, 0 ≤ x) → _calculate_gini l = giniSpecFormula l) := by
  constructor
  · intro c hc
    have hmin : minQ [c, c, c, c] = c := by simp [minQ]
    have hnoshift : ¬ minQ [c, c, c, c] < 0 := by
      rw [hmin]; exact not_lt.2 hc.le
    unfold _calculate_gini
    rw [if_neg hnoshift]
    have hsort : List.insertionSort (· ≤ ·)
        ([c, c, c, c].map (fun x => x + 1 / 10000000)) =
        [c + 1 / 10000000, c + 1 / 10000000, c + 1 / 10000000, c + 1 / 10000000] := by
      simp [List.insertionSort, List.orderedInsert]
    rw [hsort, giniRatio_four_equal]
    norm_num
  · intro l hl
    have hmin : 0 ≤ minQ l := minQ_nonneg hl
    have hnoshift : ¬ minQ l < 0 := not_lt.2 hmin
    have hminzero : min (minQ l) 0 = 0 := min_eq_right hmin
    unfold _calculate_gini giniSpecFormula
    rw [if_neg hnoshift, hminzero]
    simp only [sub_zero, List.map_id']

/-- Witness for C6 at concrete inputs. -/
theorem calculate_gini_spec_w :
    (0 < (10 : ℚ) ∧ |_calculate_gini [10, 10, 10, 10]| ≤ 1 / 10000) ∧
    ((∀ x ∈ [(2 : ℚ), 0, 1], 0 ≤ x) ∧
      _calculate_gini [2, 0, 1] = giniSpecFormula [2, 0, 1]) :=
  ⟨⟨by norm_num, calculate_gini_spec.1 10 (by norm_num)⟩,
   ⟨by norm_num, calculate_gini_spec.2 [2, 0, 1] (by norm_num)⟩⟩

/-! ### Claim C9: two-period comparison -/

lemma length_filter_or_of_disjoint (p q : Row → Bool) (l : List Row)
    (h : ∀ x ∈ l, ¬(p x = true ∧ q x = true)) :
    (l.filter p).length + (l.filter q).length =
      (l.filter (fun x => p x || q x)).length := by
  induction l with
  | nil => rfl
  | cons a t ih =>
    have ht : ∀ x ∈ t, ¬(p x = true ∧ q x = true) :=
      fun x hx => h x (by simp [hx])
    have ha := h a (by simp)
    cases hp : p a <;> cases hq : q a <;>
      simp_all [List.filter_cons] <;> omega

/-- Claim C9: on two disjoint inclusive date ranges,
`compare_time_periods` reports period totals that add up to the number
of rows whose date falls in either range (rows outside both ranges are
counted in neither). -/
theorem compare_time_periods_disjoint_sum
    (df : List Row) (s1 e1 s2 e2 : Nat) (hdisj : e1 < s2 ∨ e2 < s1) :
    (compare_time_periods df s1 e1 s2 e2).1.1.total_crawls +
      (compare_time_periods df s1 e1 s2 e2).1.2.total_crawls =
      (df.filter (fun r =>
        (s1 ≤ r.date && r.date ≤ e1) || (s2 ≤ r.date && r.date ≤ e2))).length := by
  unfold compare_time_periods mkMetrics
  refine length_filter_or_of_disjoint _ _ df (fun r _ hcontra => ?_)
  obtain ⟨h1, h2⟩ := hcontra
  simp only [Bool.and_eq_true, decide_eq_true_eq] at h1 h2
  rcases hdisj with h | h
  · omega
  · omega

/-- Witness for C9 at a concrete table and concrete disjoint ranges. -/
theorem compare_time_periods_disjoint_sum_w :
    ((10 : Nat) < 11 ∨ (12 : Nat) < 10) ∧
    (compare_time_periods [rowOk] 10 10 11 12).1.1.total_crawls +
      (compare_time_periods [rowOk] 10 10 11 12).1.2.total_crawls =
      ([rowOk].filter (fun r =>
        (10 ≤ r.date && r.date ≤ 10) || (11 ≤ r.date && r.date ≤ 12))).length :=
  ⟨by decide, compare_time_periods_disjoint_sum [rowOk] 10 10 11 12 (by decide)⟩

/-! ### Claim C5: ingestion diagnostics -/

lemma length_filterMap_eq_length_filter (f : α → Option β) (l : List α) :
    (l.filterMap f).length = (l.filter (fun a => (f a).isSome)).length := by
  induction l with
  | nil => rfl
  | cons a t ih =>
    cases hfa : f a <;> simp [List.filterMap_cons, List.filter_cons, hfa, ih]

/-- Claim C5: on a non-empty line list with zero qualifying lines,
`load_data` raises the diagnostic error carrying the total line count,
the invalid line count (equal to the total here) and the first five
lines; when some lines qualify it returns a table with exactly one row
per matched line, reporting the total and matched counts. -/
theorem load_data_diagnostics (content : String)
    (hne : procLines content ≠ []) :
    ((∀ l ∈ procLines content, parseLogLine l = none) →
      load_data content = .error (.noEntries (procLines content).length
        (procLines content).length ((procLines content).take 5))) ∧
    ((∃ l ∈ procLines content, (parseLogLine l).isSome) →
      ∃ ok, load_data content = .ok ok ∧
        ok.total = (procLines content).length ∧
        ok.matched = ((procLines content).filter
          (fun l => (parseLogLine l).isSome)).length ∧
        ok.rows.length = ok.matched) := by
  have hempty : (procLines content).isEmpty = false := by
    simp [List.isEmpty_iff, hne]
  constructor
  · intro hall
    have hmt : (procLines content).filterMap parseLogLine = [] :=
      List.filterMap_eq_nil_iff.2 hall
    simp [load_data, hempty, hmt]
  · rintro ⟨l0, hl0, hsome⟩
    have hne2 : ((procLines content).filterMap parseLogLine).isEmpty = false := by
      have hn : (procLines content).filterMap parseLogLine ≠ [] := by
        intro hemp
        rw [List.filterMap_eq_nil_iff] at hemp
        rw [hemp l0 hl0] at hsome
        simp at hsome
      simp [List.isEmpty_iff, hn]
    refine ⟨{ total := (procLines content).length,
              matched := ((procLines content).filterMap parseLogLine).length,
              rows := ((procLines content).filterMap parseLogLine).map mkRow },
            ?_, rfl, ?_, ?_⟩
    · simp [load_data, hempty, hne2]
    · exact length_filterMap_eq_length_filter _ _
    · simp

/-- The spec's end-to-end example: a 20-line synthetic log, 12 googlebot
lines across 3 distinct dates, the rest non-qualifying (including one
malformed line). -/
def logContent20 : String :=
  "1.1.1.1 - - [01/Jan/2024:00:10:00 +0000] \"GET /a HTTP/1.1\" 200 10 \"-\" \"Googlebot/2.1\"\n" ++
  "1.1.1.2 - - [01/Jan/2024:01:10:00 +0000] \"GET /b HTTP/1.1\" 200 10 \"-\" \"Googlebot/2.1\"\n" ++
  "1.1.1.3 - - [01/Jan/2024:02:10:00 +0000] \"GET /c HTTP/1.1\" 404 10 \"-\" \"Googlebot/2.1\"\n" ++
  "1.1.1.4 - - [01/Jan/2024:03:10:00 +0000] \"GET /d HTTP/1.1\" 200 10 \"-\" \"Googlebot/2.1\"\n" ++
  "2.1.1.1 - - [02/Jan/2024:00:20:00 +0000] \"GET /a HTTP/1.1\" 200 10 \"-\" \"Googlebot/2.1\"\n" ++
  "2.1.1.2 - - [02/Jan/2024:01:20:00 +0000] \"GET /b HTTP/1.1\" 200 10 \"-\" \"Googlebot/2.1\"\n" ++
  "2.1.1.3 - - [02/Jan/2024:02:20:00 +0000] \"GET /c HTTP/1.1\" 500 10 \"-\" \"Googlebot/2.1\"\n" ++
  "2.1.1.4 - - [02/Jan/2024:03:20:00 +0000] \"GET /d HTTP/1.1\" 200 10 \"-\" \"Googlebot/2.1\"\n" ++
  "3.1.1.1 - - [03/Jan/2024:00:30:00 +0000] \"GET /a HTTP/1.1\" 200 10 \"-\" \"Googlebot/2.1\"\n" ++
  "3.1.1.2 - - [03/Jan/2024:01:30:00 +0000] \"GET /b HTTP/1.1\" 200 10 \"-\" \"Googlebot/2.1\"\n" ++
  "3.1.1.3 - - [03/Jan/2024:02:30:00 +0000] \"GET /c HTTP/1.1\" 200 10 \"-\" \"Googlebot/2.1\"\n" ++
  "3.1.1.4 - - [03/Jan/2024:03:30:00 +0000] \"GET /d HTTP/1.1\" 200 10 \"-\" \"Googlebot/2.1\"\n" ++
  "4.1.1.1 - - [04/Jan/2024:00:40:00 +0000] \"GET /a HTTP/1.1\" 200 10 \"-\" \"Mozilla/5.0\"\n" ++
  "4.1.1.2 - - [04/Jan/2024:01:40:00 +0000] \"GET /b HTTP/1.1\" 200 10 \"-\" \"Mozilla/5.0\"\n" ++
  "4.1.1.3 - - [04/Jan/2024:02:40:00 +0000] \"GET /c HTTP/1.1\" 200 10 \"-\" \"Mozilla/5.0\"\n" ++
  "4.1.1.4 - - [04/Jan/2024:03:40:00 +0000] \"GET /d HTTP/1.1\" 200 10 \"-\" \"Mozilla/5.0\"\n" ++
  "5.1.1.1 - - [05/Jan/2024:00:50:00 +0000] \"GET /a HTTP/1.1\" 200 10 \"-\" \"bingbot/2.0\"\n" ++
  "5.1.1.2 - - [05/Jan/2024:01:50:00 +0000] \"GET /b HTTP/1.1\" 200 10 \"-\" \"bingbot/2.0\"\n" ++
  "5.1.1.3 - - [05/Jan/2024:02:50:00 +0000] \"GET /c HTTP/1.1\" 200 10 \"-\" \"bingbot/2.0\"\n" ++
  "this line is not an access log line\n"

/-- Witness for C5: on the 20-line example the pipeline reports
total=20, matched=12 and yields exactly 12 rows. -/
theorem load_data_diagnostics_w :
    (∃ ok, load_data logContent20 = .ok ok ∧
      ok.total = (procLines logContent20).length ∧
      ok.matched = ((procLines logContent20).filter
        (fun l => (parseLogLine l).isSome)).length ∧
      ok.rows.length = ok.matched) ∧
    (procLines logContent20).length = 20 ∧
    ((procLines logContent20).filter
      (fun l => (parseLogLine l).isSome)).length = 12 :=
  ⟨(load_data_diagnostics logContent20 (by decide)).2 (by decide),
   by decide, by decide⟩

/-! ### Claim C10: crawl frequency -/

/-- The `(date, url)` key of a frequency row. -/
def freqKey (fr : FreqRow) : Nat × String := (fr.date, fr.url)

/-- Claim C10: `calculate_crawl_frequency` returns an empty frame for
the `None` input and for an empty table; on a non-empty table it
returns rows sorted by date, one per distinct `(date, url)` pair of the
table, whose count is the number of events with that date and url. -/
theorem calculate_crawl_frequency_shape :
    calculate_crawl_frequency none = [] ∧
    calculate_crawl_frequency (some []) = [] ∧
    (∀ df : List Row, df ≠ [] →
      (calculate_crawl_frequency (some df)).Pairwise (fun a b => a.date ≤ b.date) ∧
      ((calculate_crawl_frequency (some df)).map freqKey).Nodup ∧
      (∀ d u, ((d, u) ∈ (calculate_crawl_frequency (some df)).map freqKey ↔
        (d, u) ∈ df.map (fun r => (r.date, r.url)))) ∧
      (∀ fr ∈ calculate_crawl_frequency (some df),
        fr.crawl_count =
          ((df.map (fun r => (r.date, r.url))).count (fr.date, fr.url) : ℚ))) := by
  refine ⟨rfl, rfl, ?_⟩
  intro df hdf
  have hne : df.isEmpty = false := by simp [List.isEmpty_iff, hdf]
  have hres : calculate_crawl_frequency (some df) =
      List.insertionSort (fun a b => a.date ≤ b.date)
        ((List.insertionSort pairLe (df.map (fun r => (r.date, r.url))).dedup).map
          (fun k => { date := k.1, url := k.2,
                      crawl_count := ((df.map (fun r => (r.date, r.url))).count k : ℚ) })) := by
    simp [calculate_crawl_frequency, hne]
  haveI : IsTotal FreqRow (fun a b => a.date ≤ b.date) :=
    ⟨fun a b => Nat.le_total _ _⟩
  haveI : IsTrans FreqRow (fun a b => a.date ≤ b.date) :=
    ⟨fun _ _ _ => Nat.le_trans⟩
  have hperm : List.Perm (calculate_crawl_frequency (some df))
      ((List.insertionSort pairLe (df.map (fun r => (r.date, r.url))).dedup).map
        (fun k => ({ date := k.1, url := k.2,
                     crawl_count := ((df.map (fun r => (r.date, r.url))).count k : ℚ) } : FreqRow))) := by
    rw [hres]
    exact List.perm_insertionSort _ _
  have hkeysperm : List.Perm
      (List.insertionSort pairLe (df.map (fun r => (r.date, r.url))).dedup)
      (df.map (fun r => (r.date, r.url))).dedup := List.perm_insertionSort _ _
  have hmapkeys : ((List.insertionSort pairLe (df.map (fun r => (r.date, r.url))).dedup).map
      (fun k => ({ date := k.1, url := k.2,
                   crawl_count := ((df.map (fun r => (r.date, r.url))).count k : ℚ) } : FreqRow))).map freqKey =
      List.insertionSort pairLe (df.map (fun r => (r.date, r.url))).dedup := by
    have hcomp : (freqKey ∘ fun k : Nat × String =>
        ({ date := k.1, url := k.2,
           crawl_count := ((df.map (fun r => (r.date, r.url))).count k : ℚ) } : FreqRow)) = id := by
      funext k
      cases k
      rfl
    rw [List.map_map, hcomp, List.map_id]
  refine ⟨?_, ?_, ?_, ?_⟩
  · rw [hres]
    exact List.sorted_insertionSort _ _
  · have h1 : List.Perm ((calculate_crawl_frequency (some df)).map freqKey)
        (List.insertionSort pairLe (df.map (fun r => (r.date, r.url))).dedup) := by
      rw [← hmapkeys]
      exact hperm.map _
    exact ((h1.trans hkeysperm).symm.nodup) (List.nodup_dedup _)
  · intro d u
    have h1 : List.Perm ((calculate_crawl_frequency (some df)).map freqKey)
        (df.map (fun r => (r.date, r.url))).dedup := by
      have h2 := hperm.map freqKey
      rw [hmapkeys] at h2
      exact h2.trans hkeysperm
    rw [h1.mem_iff, List.mem_dedup]
  · intro fr hfr
    rw [hperm.mem_iff] at hfr
    simp only [List.mem_map] at hfr
    obtain ⟨k, _, rfl⟩ := hfr
    rfl

/-- Witness for C10 at a concrete two-row table. -/
theorem calculate_crawl_frequency_shape_w :
    ([rowOk, rowOk] ≠ []) ∧
    ((calculate_crawl_frequency (some [rowOk, rowOk])).Pairwise
        (fun a b => a.date ≤ b.date) ∧
      ((calculate_crawl_frequency (some [rowOk, rowOk])).map freqKey).Nodup ∧
      (∀ d u, ((d, u) ∈ (calculate_crawl_frequency (some [rowOk, rowOk])).map freqKey ↔
        (d, u) ∈ [rowOk, rowOk].map (fun r => (r.date, r.url)))) ∧
      (∀ fr ∈ calculate_crawl_frequency (some [rowOk, rowOk]),
        fr.crawl_count =
          (([rowOk, rowOk].map (fun r => (r.date, r.url))).count (fr.date, fr.url) : ℚ))) :=
  ⟨by decide, calculate_crawl_frequency_shape.2.2 [rowOk, rowOk] (by decide)⟩

/-! ### Claim C8: sorting of the url-pattern frame -/

/-- Claim C8: for every known sort column, `get_url_patterns` with
`ascending=False` yields a sequence that is non-increasing in that
column, and `ascending=True` yields exactly the reversed order; an
unknown sort column leaves the grouped rows in their unsorted order. -/
theorem get_url_patterns_sorting
    (df : List Row) (sd ed : Option Nat) (f : String) :
    (f ∈ upatCols →
      (get_url_patterns df sd ed f false).Pairwise
        (fun a b => upKey f b ≤ upKey f a) ∧
      get_url_patterns df sd ed f true =
        (get_url_patterns df sd ed f false).reverse) ∧
    (f ∉ upatCols →
      ∀ b : Bool, get_url_patterns df sd ed f b = groupedUPats df sd ed) := by
  constructor
  · intro hf
    have hdef : ∀ b, get_url_patterns df sd ed f b =
        sortValuesBy f b (groupedUPats df sd ed) := by
      intro b
      simp [get_url_patterns, hf]
    haveI : IsTotal UPat (fun a b => upKey f a ≤ upKey f b) :=
      ⟨fun a b => le_total _ _⟩
    haveI : IsTrans UPat (fun a b => upKey f a ≤ upKey f b) :=
      ⟨fun _ _ _ hab hbc => le_trans hab hbc⟩
    have hsorted := List.sorted_insertionSort
      (fun a b => upKey f a ≤ upKey f b) (groupedUPats df sd ed)
    constructor
    · rw [hdef false]
      show (List.insertionSort _ _).reverse.Pairwise _
      rw [List.pairwise_reverse]
      exact hsorted
    · rw [hdef true, hdef false]
      show List.insertionSort _ _ = (List.insertionSort _ _).reverse.reverse
      rw [List.reverse_reverse]
  · intro hf b
    simp [get_url_patterns, hf]

/-- Witness for C8 at a concrete table, a known column and an unknown
column. -/
theorem get_url_patterns_sorting_w :
    ("total_crawls" ∈ upatCols ∧
      ((get_url_patterns [rowOk] none none "total_crawls" false).Pairwise
        (fun a b => upKey "total_crawls" b ≤ upKey "total_crawls" a) ∧
       get_url_patterns [rowOk] none none "total_crawls" true =
         (get_url_patterns [rowOk] none none "total_crawls" false).reverse)) ∧
    ("zzz" ∉ upatCols ∧
      get_url_patterns [rowOk] none none "zzz" true = groupedUPats [rowOk] none none) :=
  ⟨⟨by decide, (get_url_patterns_sorting [rowOk] none none "total_crawls").1 (by decide)⟩,
   ⟨by decide, (get_url_patterns_sorting [rowOk] none none "zzz").2 (by decide) true⟩⟩

/-! ### Claim C7: seasonal decomposition gate -/

lemma getLast?_map (f : α → β) :
    ∀ l : List α, (l.map f).getLast? = l.getLast?.map f := by
  intro l
  induction l with
  | nil => rfl
  | cons a t ih =>
    cases t with
    | nil => rfl
    | cons b s =>
      simp only [List.map_cons, List.getLast?_cons_cons] at ih ⊢
      exact ih

/-- A strictly increasing list of day numbers fits inside the closed
interval between its first and last element. -/
lemma strict_length_le :
    ∀ ds : List Nat, ds.Pairwise (· < ·) →
      ∀ a b, ds.head? = some a → ds.getLast? = some b →
        ds.length ≤ b + 1 - a := by
  intro ds
  induction ds with
  | nil => intro _ a b h; cases h
  | cons x t ih =>
    intro hp a b ha hb
    have hax : a = x := by
      simpa using ha.symm
    cases t with
    | nil =>
      have hbx : b = x := by
        simpa using hb.symm
      subst hax hbx
      simp
    | cons y s =>
      have hxy : x < y := (List.pairwise_cons.1 hp).1 y (by simp)
      have hpt : (y :: s).Pairwise (· < ·) := (List.pairwise_cons.1 hp).2
      have hlast : (y :: s).getLast? = some b := by
        rwa [List.getLast?_cons_cons] at hb
      have hlen := ih hpt y b rfl hlast
      have hylen : 1 ≤ (y :: s).length := by simp
      subst hax
      simp only [List.length_cons] at hlen ⊢
      omega

/-- Claim C7: `perform_statistical_analysis` returns three empty
trend/seasonal/residual series exactly when fewer than 14 distinct days
are observed or the decomposition fails; with at least 14 distinct days
it decomposes the zero-filled calendar series (period 7), producing
non-empty series whose lengths all match the reindexed series. -/
theorem perform_statistical_analysis_decomposition (df : List Row) :
    (performDecomposition df = ([], [], []) ↔
      ((dailySeries df).length < 14 ∨
        (14 ≤ (dailySeries df).length ∧
          seasonal_decompose (calendarFill (dailySeries df)) = .error ()))) ∧
    (14 ≤ (dailySeries df).length →
      (performDecomposition df).1.length = (calendarFill (dailySeries df)).length ∧
      (performDecomposition df).2.1.length = (calendarFill (dailySeries df)).length ∧
      (performDecomposition df).2.2.length = (calendarFill (dailySeries df)).length ∧
      (performDecomposition df).1 ≠ []) := by
  by_cases h14 : 14 ≤ (dailySeries df).length
  · -- at least 14 distinct days: the calendar span is at least 14 and
    -- the decomposition succeeds with length-matched series
    have hcal : 14 ≤ (calendarFill (dailySeries df)).length := by
      have hsorted : (List.insertionSort (· ≤ ·) (df.map Row.date).dedup).Pairwise
          (· ≤ ·) := List.sorted_insertionSort _ _
      have hnodup : (List.insertionSort (· ≤ ·) (df.map Row.date).dedup).Nodup :=
        (List.perm_insertionSort (· ≤ ·) (df.map Row.date).dedup).symm.nodup
          (List.nodup_dedup _)
      have hstrict : (List.insertionSort (· ≤ ·) (df.map Row.date).dedup).Pairwise
          (· < ·) :=
        (hsorted.and hnodup).imp (fun h => lt_of_le_of_ne h.1 h.2)
      cases hsd : List.insertionSort (· ≤ ·) (df.map Row.date).dedup with
      | nil =>
        rw [dailySeries, hsd] at h14
        simp at h14
      | cons d0 ds =>
        rw [hsd] at hstrict
        have hlastsd : (d0 :: ds).getLast? =
            some ((d0 :: ds).getLast (by simp)) := List.getLast?_eq_getLast _ _
        have hD := strict_length_le (d0 :: ds) hstrict d0
          ((d0 :: ds).getLast (by simp)) rfl hlastsd
        have hdaily : dailySeries df =
            (d0 :: ds).map (fun d => (d, df.countP (fun r => r.date == d))) := by
          rw [dailySeries, hsd]
        have hlen : (dailySeries df).length = (d0 :: ds).length := by
          rw [hdaily, List.length_map]
        have hhead : (dailySeries df).head? =
            some (d0, df.countP (fun r => r.date == d0)) := by
          rw [hdaily]
          rfl
        have hlast : (dailySeries df).getLast? =
            some ((d0 :: ds).getLast (by simp),
              df.countP (fun r => r.date == (d0 :: ds).getLast (by simp))) := by
          rw [hdaily, getLast?_map, hlastsd]
          rfl
        have hfill : (calendarFill (dailySeries df)).length =
            (d0 :: ds).getLast (by simp) + 1 - d0 := by
          rw [calendarFill, hhead, hlast]
          simp
        rw [hfill]
        rw [hlen] at h14
        omega
    have hok : seasonal_decompose (calendarFill (dailySeries df)) =
        .ok (movingTrend (calendarFill (dailySeries df)),
          seasonalFromMeans
            (classMeans ((List.range (calendarFill (dailySeries df)).length).map
              (fun i => ((movingTrend (calendarFill (dailySeries df))).getD i none).map
                (fun t => (calendarFill (dailySeries df)).getD i 0 - t))))
            (calendarFill (dailySeries df)).length,
          (List.range (calendarFill (dailySeries df)).length).map (fun i =>
            match (movingTrend (calendarFill (dailySeries df))).getD i none,
              (seasonalFromMeans
                (classMeans ((List.range (calendarFill (dailySeries df)).length).map
                  (fun i => ((movingTrend (calendarFill (dailySeries df))).getD i none).map
                    (fun t => (calendarFill (dailySeries df)).getD i 0 - t))))
                (calendarFill (dailySeries df)).length).getD i none with
            | some t, some s => some ((calendarFill (dailySeries df)).getD i 0 - t - s)
            | _, _ => none)) := by
      rw [seasonal_decompose, if_neg (not_lt.2 hcal)]
    have hperf : performDecomposition df =
        (movingTrend (calendarFill (dailySeries df)),
          seasonalFromMeans
            (classMeans ((List.range (calendarFill (dailySeries df)).length).map
              (fun i => ((movingTrend (calendarFill (dailySeries df))).getD i none).map
                (fun t => (calendarFill (dailySeries df)).getD i 0 - t))))
            (calendarFill (dailySeries df)).length,
          (List.range (calendarFill (dailySeries df)).length).map (fun i =>
            match (movingTrend (calendarFill (dailySeries df))).getD i none,
              (seasonalFromMeans
                (classMeans ((List.range (calendarFill (dailySeries df)).length).map
                  (fun i => ((movingTrend (calendarFill (dailySeries df))).getD i none).map
                    (fun t => (calendarFill (dailySeries df)).getD i 0 - t))))
                (calendarFill (dailySeries df)).length).getD i none with
            | some t, some s => some ((calendarFill (dailySeries df)).getD i 0 - t - s)
            | _, _ => none)) := by
      rw [performDecomposition, if_pos h14, hok]
    have hlt : (movingTrend (calendarFill (dailySeries df))).length =
        (calendarFill (dailySeries df)).length := by
      rw [movingTrend, List.length_map, List.length_range]
    constructor
    · constructor
      · intro hemp
        rw [hperf] at hemp
        have h1 : (calendarFill (dailySeries df)).length = 0 := by
          rw [← hlt]
          exact congrArg List.length (congrArg Prod.fst hemp)
        omega
      · rintro (hlt14 | ⟨_, herr⟩)
        · omega
        · rw [hok] at herr
          cases herr
    · intro _
      rw [hperf]
      refine ⟨hlt, ?_, ?_, ?_⟩
      · rw [seasonalFromMeans]
        simp
      · simp
      · intro hnil
        have h2 : (calendarFill (dailySeries df)).length = 0 := by
          rw [← hlt]
          exact congrArg List.length hnil
        omega
  · -- fewer than 14 distinct days: the three series are empty
    have hperf : performDecomposition df = ([], [], []) := by
      rw [performDecomposition, if_neg h14]
    constructor
    · constructor
      · intro _
        exact Or.inl (lt_of_not_le h14)
      · intro _
        exact hperf
    · intro h
      exact absurd h h14

/-- A table with 14 rows on 14 consecutive days. -/
def rows14 : List Row :=
  (List.range 14).map (fun i => { rowOk with date := 100 + i })

/-- Witness for C7 at a table with 14 distinct consecutive days. -/
theorem perform_statistical_analysis_decomposition_w :
    14 ≤ (dailySeries rows14).length ∧
    ((performDecomposition rows14).1.length =
        (calendarFill (dailySeries rows14)).length ∧
      (performDecomposition rows14).2.1.length =
        (calendarFill (dailySeries rows14)).length ∧
      (performDecomposition rows14).2.2.length =
        (calendarFill (dailySeries rows14)).length ∧
      (performDecomposition rows14).1 ≠ []) :=
  ⟨by decide,
   (perform_statistical_analysis_decomposition rows14).2 (by decide)⟩

/-! ### Claim C4: byte decoding -/

lemma decode_go_agree (n : Nat) :
    ∀ bs : List Nat,
      (∀ cs, decodeStrictGo n bs = some cs → decodeReplaceGo n bs = cs) ∧
      (decodeStrictGo n bs = none → 0xFFFD ∈ decodeReplaceGo n bs) := by
  induction n with
  | zero =>
    intro bs
    constructor
    · intro cs h
      simp only [decodeStrictGo, Option.some.injEq] at h
      rw [← h]
      rfl
    · intro h
      simp [decodeStrictGo] at h
  | succ n ih =>
    intro bs
    constructor
    · intro cs h
      cases hstep : utf8Step bs with
      | done =>
        simp only [decodeStrictGo, hstep, Option.some.injEq] at h
        simp only [decodeReplaceGo, hstep]
        exact h
      | ch cp r =>
        simp only [decodeStrictGo, hstep, Option.map_eq_some'] at h
        obtain ⟨cs', hs', rfl⟩ := h
        simp only [decodeReplaceGo, hstep]
        rw [(ih r).1 cs' hs']
      | bad r =>
        simp only [decodeStrictGo, hstep] at h
        exact Option.noConfusion h
    · intro h
      cases hstep : utf8Step bs with
      | done =>
        simp only [decodeStrictGo, hstep] at h
        exact Option.noConfusion h
      | ch cp r =>
        simp only [decodeStrictGo, hstep, Option.map_eq_none'] at h
        simp only [decodeReplaceGo, hstep]
        exact List.mem_cons_of_mem _ ((ih r).2 h)
      | bad r =>
        simp only [decodeReplaceGo, hstep]
        exact List.mem_cons_self _ _

/-- Claim C4 (amended): ingestion decodes bytes with a single UTF-8
decode using `errors='replace'`: when the bytes are valid UTF-8 the
result is the strict decoding, and when they are not, undecodable
sequences are silently replaced with U+FFFD — decoding never fails and
no fallback encodings are attempted. -/
theorem decode_utf8_replace_semantics (bs : List Nat) :
    (∀ cs, decodeStrict bs = some cs → decodeReplace bs = cs) ∧
    (decodeStrict bs = none → 0xFFFD ∈ decodeReplace bs) :=
  decode_go_agree bs.length bs

/-- Witness for C4 at a valid and an invalid byte string. -/
theorem decode_utf8_replace_semantics_w :
    (decodeStrict [0x61, 0x62] = some [0x61, 0x62] ∧
      decodeReplace [0x61, 0x62] = [0x61, 0x62]) ∧
    (decodeStrict [0x61, 0xFF] = none ∧
      (0xFFFD : Nat) ∈ decodeReplace [0x61, 0xFF]) :=
  ⟨⟨by decide,
    (decode_utf8_replace_semantics [0x61, 0x62]).1 [0x61, 0x62] (by decide)⟩,
   ⟨by decide, (decode_utf8_replace_semantics [0x61, 0xFF]).2 (by decide)⟩⟩

/-- A well-formed googlebot log line with a stray 0xFF byte inside the
user-agent field. -/
def gbLineFFBytes : List Nat :=
  asciiBytes "1.2.3.4 - - [05/Feb/2024:14:23:45 +0000] \"GET /page HTTP/1.1\" 200 512 \"-\" \"Googlebot" ++
    [0xFF] ++ asciiBytes "/2.1\""

/-- Claim C4 (counterexample): on bytes that no strict UTF-8 decode
accepts, `load_data` does not fail with an encoding error — it decodes
with `errors='replace'`, silently substituting U+FFFD for the
undecodable byte, and ingestion proceeds to a successful event table. -/
theorem load_data_never_encoding_error :
    decodeStrict gbLineFFBytes = none ∧
    (0xFFFD : Nat) ∈ decodeReplace gbLineFFBytes ∧
    (load_data_bytes gbLineFFBytes).toOption.isSome = true := by
  refine ⟨by decide, by decide, by decide⟩

/-! ### Claim C2: pattern priority in `parse_log_line`

The structural facts below reconstruct, over the deterministic scanners,
why a line already matched by pattern 1 can never match pattern 2 (the
two ident fields force a non-`[` character where pattern 2 demands the
`[` of its timestamp), and why pattern 3 can never produce an event (its
captures carry no `url`). -/

lemma space_not_digitDot (c : Char) (h : isSpaceCh c = true) :
    isDigitDot c = false := by
  simp only [isSpaceCh, Bool.or_eq_true, beq_iff_eq] at h
  rcases h with ((((rfl | rfl) | rfl) | rfl) | rfl) | rfl <;> decide

lemma space_not_ident (c : Char) (h : isSpaceCh c = true) :
    isIdentCh c = false := by
  simp only [isSpaceCh, Bool.or_eq_true, beq_iff_eq] at h
  rcases h with ((((rfl | rfl) | rfl) | rfl) | rfl) | rfl <;> decide

lemma digitDot_nonspace (c : Char) (h : isDigitDot c = true) :
    (!isSpaceCh c) = true := by
  cases hs : isSpaceCh c
  · rfl
  · rw [space_not_digitDot c hs] at h
    cases h

lemma ident_nonspace (c : Char) (h : isIdentCh c = true) :
    (!isSpaceCh c) = true := by
  cases hs : isSpaceCh c
  · rfl
  · rw [space_not_ident c hs] at h
    cases h

lemma digitDot_ne_lbracket (c : Char) (h : isDigitDot c = true) : c ≠ '[' := by
  intro he
  subst he
  exact absurd h (by decide)

lemma ident_ne_lbracket (c : Char) (h : isIdentCh c = true) : c ≠ '[' := by
  intro he
  subst he
  exact absurd h (by decide)

lemma takeWhile_append_all {p : Char → Bool} (A B : List Char)
    (hA : ∀ a ∈ A, p a = true) :
    (A ++ B).takeWhile p = A ++ B.takeWhile p := by
  induction A with
  | nil => rfl
  | cons a t ih =>
    have hpa := hA a (by simp)
    simp only [List.cons_append, List.takeWhile_cons, hpa, if_true]
    rw [ih (fun x hx => hA x (by simp [hx]))]

lemma dropWhile_append_all {p : Char → Bool} (A B : List Char)
    (hA : ∀ a ∈ A, p a = true) :
    (A ++ B).dropWhile p = B.dropWhile p := by
  induction A with
  | nil => rfl
  | cons a t ih =>
    have hpa := hA a (by simp)
    simp only [List.cons_append, List.dropWhile_cons, hpa, if_true]
    exact ih (fun x hx => hA x (by simp [hx]))

lemma takeWhile_cons_false {p : Char → Bool} {b : Char} (B : List Char)
    (h : p b = false) : (b :: B).takeWhile p = [] := by
  simp [List.takeWhile_cons, h]

/-- When every `p`-character is a `q`-character and the `p`-run stops at
a character failing `q`, the two runs coincide. -/
lemma runs_eq_of_stop {p q : Char → Bool}
    (hpq : ∀ c, p c = true → q c = true) (l : List Char)
    (hstop : ∀ d, (l.dropWhile p).head? = some d → q d = false) :
    l.takeWhile q = l.takeWhile p ∧ l.dropWhile q = l.dropWhile p := by
  have hall : ∀ a ∈ l.takeWhile p, q a = true :=
    fun a ha => hpq a (List.mem_takeWhile_imp ha)
  constructor
  · conv_lhs => rw [← List.takeWhile_append_dropWhile p l]
    rw [takeWhile_append_all _ _ hall]
    cases hd : l.dropWhile p with
    | nil => simp
    | cons d t =>
      have hq : q d = false := hstop d (by rw [hd]; rfl)
      rw [takeWhile_cons_false _ hq, List.append_nil]
  · conv_lhs => rw [← List.takeWhile_append_dropWhile p l]
    rw [dropWhile_append_all _ _ hall]
    cases hd : l.dropWhile p with
    | nil => rfl
    | cons d t =>
      have hq : q d = false := hstop d (by rw [hd]; rfl)
      simp [List.dropWhile_cons, hq]

/-- A `p`-run is confined to the `q`-run when `p` implies `q`. -/
lemma takeWhile_sub {p q : Char → Bool}
    (hpq : ∀ c, p c = true → q c = true) (l : List Char) :
    l.takeWhile p = (l.takeWhile q).takeWhile p := by
  induction l with
  | nil => rfl
  | cons c t ih =>
    cases hp : p c
    · cases hq : q c
      · simp [List.takeWhile_cons, hp, hq]
      · simp [List.takeWhile_cons, hp, hq]
    · have hq := hpq c hp
      simp only [List.takeWhile_cons, hp, hq, if_true]
      rw [ih]

lemma dropWhile_sub {p q : Char → Bool}
    (hpq : ∀ c, p c = true → q c = true) (l : List Char) :
    l.dropWhile p = (l.takeWhile q).dropWhile p ++ l.dropWhile q := by
  induction l with
  | nil => rfl
  | cons c t ih =>
    cases hp : p c
    · cases hq : q c
      · simp [List.dropWhile_cons, List.takeWhile_cons, hp, hq]
      · simp only [List.dropWhile_cons, List.takeWhile_cons, hp, hq, if_true,
          Bool.false_eq_true, if_false]
        rw [List.cons_append, List.takeWhile_append_dropWhile]
    · have hq := hpq c hp
      simp only [List.dropWhile_cons, List.takeWhile_cons, hp, hq, if_true]
      exact ih

lemma tw1_none_iff {p : Char → Bool} {l : List Char} :
    tw1 p l = none ↔ l.takeWhile p = [] := by
  unfold tw1
  by_cases h : (l.takeWhile p).isEmpty
  · simp [h, List.isEmpty_iff.1 h]
  · have hne : l.takeWhile p ≠ [] := by
      simpa [List.isEmpty_iff] using h
    simp [h, hne]

lemma tw1_eq_some {p : Char → Bool} {l t r : List Char}
    (h : tw1 p l = some (t, r)) :
    t = l.takeWhile p ∧ r = l.dropWhile p ∧ l.takeWhile p ≠ [] := by
  unfold tw1 at h
  by_cases he : (l.takeWhile p).isEmpty
  · rw [if_pos he] at h
    exact Option.noConfusion h
  · rw [if_neg he] at h
    have hne : l.takeWhile p ≠ [] := by
      simpa [List.isEmpty_iff] using he
    have h2 : (l.takeWhile p, l.dropWhile p) = (t, r) := Option.some.inj h
    exact ⟨(congrArg Prod.fst h2).symm, (congrArg Prod.snd h2).symm, hne⟩

lemma tw1_some_head {p : Char → Bool} {l : List Char}
    {x : List Char × List Char} (h : tw1 p l = some x) :
    ∃ d t, l = d :: t ∧ p d = true := by
  cases l with
  | nil => simp [tw1] at h
  | cons d t =>
    cases hp : p d
    · rw [tw1, takeWhile_cons_false _ hp] at h
      simp at h
    · exact ⟨d, t, rfl, hp⟩

lemma head_of_takeWhile_ne {p : Char → Bool} {X : List Char}
    (h : X.takeWhile p ≠ []) : ∃ d t, X = d :: t ∧ p d = true := by
  cases X with
  | nil => exact absurd rfl h
  | cons d t =>
    cases hp : p d
    · exact absurd (takeWhile_cons_false _ hp) h
    · exact ⟨d, t, rfl, hp⟩

lemma tw1_some_of (p : Char → Bool) {l : List Char}
    (h : l.takeWhile p ≠ []) :
    tw1 p l = some (l.takeWhile p, l.dropWhile p) := by
  have he : (l.takeWhile p).isEmpty = false := by
    simp [List.isEmpty_iff, h]
  unfold tw1
  rw [he]
  rfl

/-! #### Structure extraction for the scanner segments -/

lemma ipWs_some_parts {l : List Char} {p : List Char × List Char}
    (h : ipWs l = some p) :
    l.takeWhile isDigitDot ≠ [] ∧
    (l.dropWhile isDigitDot).takeWhile isSpaceCh ≠ [] ∧
    p = (l.takeWhile isDigitDot, (l.dropWhile isDigitDot).dropWhile isSpaceCh) := by
  unfold ipWs at h
  rw [Option.bind_eq_bind, Option.bind_eq_some] at h
  obtain ⟨⟨a1, a2⟩, ha, h⟩ := h
  rw [Option.bind_eq_some] at h
  obtain ⟨⟨b1, b2⟩, hb, h⟩ := h
  rw [Option.pure_def, Option.some.injEq] at h
  obtain ⟨ha1, ha2, hane⟩ := tw1_eq_some ha
  subst ha1 ha2
  obtain ⟨hb1, hb2, hbne⟩ := tw1_eq_some hb
  subst hb1 hb2
  exact ⟨hane, hbne, h.symm⟩

lemma ipWs_some_of {l : List Char}
    (h1 : l.takeWhile isDigitDot ≠ [])
    (h2 : (l.dropWhile isDigitDot).takeWhile isSpaceCh ≠ []) :
    ipWs l = some (l.takeWhile isDigitDot,
      (l.dropWhile isDigitDot).dropWhile isSpaceCh) := by
  unfold ipWs
  simp [tw1_some_of _ h1, tw1_some_of _ h2]

lemma ipWs_none_of_dd {l : List Char} (h : l.takeWhile isDigitDot = []) :
    ipWs l = none := by
  unfold ipWs
  rw [tw1_none_iff.2 h]
  rfl

lemma ipWs_none_of_sp {l : List Char}
    (h1 : l.takeWhile isDigitDot ≠ [])
    (h2 : (l.dropWhile isDigitDot).takeWhile isSpaceCh = []) :
    ipWs l = none := by
  unfold ipWs
  simp [tw1_some_of _ h1, tw1_none_iff.2 h2]

lemma leadTok_some_parts {l : List Char} {r : List Char}
    (h : leadTok l = some r) :
    l.takeWhile (fun c => !isSpaceCh c) ≠ [] ∧
    (l.dropWhile (fun c => !isSpaceCh c)).takeWhile isSpaceCh ≠ [] ∧
    r = (l.dropWhile (fun c => !isSpaceCh c)).dropWhile isSpaceCh := by
  unfold leadTok at h
  rw [Option.bind_eq_bind, Option.bind_eq_some] at h
  obtain ⟨⟨a1, a2⟩, ha, h⟩ := h
  rw [Option.bind_eq_some] at h
  obtain ⟨⟨b1, b2⟩, hb, h⟩ := h
  rw [Option.pure_def, Option.some.injEq] at h
  obtain ⟨ha1, ha2, hane⟩ := tw1_eq_some ha
  subst ha1 ha2
  obtain ⟨hb1, hb2, hbne⟩ := tw1_eq_some hb
  subst hb1 hb2
  exact ⟨hane, hbne, h.symm⟩

lemma identSeg_some_parts {l : List Char} {r : List Char}
    (h : identSeg l = some r) :
    l.takeWhile isIdentCh ≠ [] ∧
    (l.dropWhile isIdentCh).takeWhile isSpaceCh ≠ [] ∧
    ∃ d t, (l.dropWhile isIdentCh).dropWhile isSpaceCh = d :: t ∧
      isIdentCh d = true := by
  unfold identSeg at h
  rw [Option.bind_eq_bind, Option.bind_eq_some] at h
  obtain ⟨⟨a1, a2⟩, ha, h⟩ := h
  rw [Option.bind_eq_some] at h
  obtain ⟨⟨w1, w2⟩, hw, h⟩ := h
  rw [Option.bind_eq_some] at h
  obtain ⟨⟨b1, b2⟩, hb, h⟩ := h
  obtain ⟨ha1, ha2, hane⟩ := tw1_eq_some ha
  subst ha1 ha2
  obtain ⟨hw1, hw2, hwne⟩ := tw1_eq_some hw
  subst hw1 hw2
  obtain ⟨d, t, hd, hident⟩ := tw1_some_head hb
  exact ⟨hane, hwne, d, t, hd, hident⟩

lemma dtSeg_none {l : List Char} (h : expectCh '[' l = none) :
    dtSeg l = none := by
  unfold dtSeg
  rw [h]
  rfl

lemma tailMU_none_head (ip : List Char) {l : List Char}
    (h : expectCh '[' l = none) : tailMU ip l = none := by
  unfold tailMU
  rw [dtSeg_none h]
  rfl

lemma expectCh_none_of_ne {c : Char} {l : List Char}
    (h : ∀ d t, l = d :: t → d ≠ c) : expectCh c l = none := by
  cases l with
  | nil => rfl
  | cons d t =>
    simp only [expectCh]
    rw [if_neg (h d t rfl)]

lemma core2_none_of_ipWs_none {l : List Char} (h : ipWs l = none) :
    core2 l = none := by
  unfold core2
  rw [h]
  rfl

lemma core2_eq_tailMU {l : List Char} {p : List Char × List Char}
    (h : ipWs l = some p) : core2 l = tailMU p.1 p.2 := by
  unfold core2
  rw [h]
  rfl

/-- A position whose whitespace-delimited first token is followed by
whitespace, and whose post-whitespace continuation does not start with
`[`, is rejected by the body of pattern 2: the ip run (digits and dots)
lies inside the first token, so either it stops early (no following
whitespace), or it consumes the token and the very next character after
the whitespace run fails the `\[` of the timestamp. -/
lemma core2_none_shape (l0 : List Char)
    (hW : (l0.dropWhile (fun c => !isSpaceCh c)).takeWhile isSpaceCh ≠ [])
    (hhead : ∀ d t, (l0.dropWhile (fun c => !isSpaceCh c)).dropWhile isSpaceCh =
      d :: t → d ≠ '[') :
    core2 l0 = none := by
  have htA : l0.takeWhile isDigitDot =
      (l0.takeWhile (fun c => !isSpaceCh c)).takeWhile isDigitDot :=
    takeWhile_sub digitDot_nonspace l0
  have hdA : l0.dropWhile isDigitDot =
      (l0.takeWhile (fun c => !isSpaceCh c)).dropWhile isDigitDot ++
        l0.dropWhile (fun c => !isSpaceCh c) :=
    dropWhile_sub digitDot_nonspace l0
  cases he : (l0.takeWhile (fun c => !isSpaceCh c)).takeWhile isDigitDot with
  | nil =>
    exact core2_none_of_ipWs_none (ipWs_none_of_dd (htA.trans he))
  | cons e es =>
    have hddne : l0.takeWhile isDigitDot ≠ [] := by
      rw [htA, he]
      exact List.cons_ne_nil _ _
    cases hd : (l0.takeWhile (fun c => !isSpaceCh c)).dropWhile isDigitDot with
    | nil =>
      have hdrop : l0.dropWhile isDigitDot =
          l0.dropWhile (fun c => !isSpaceCh c) := by
        rw [hdA, hd, List.nil_append]
      have hip : ipWs l0 = some (l0.takeWhile isDigitDot,
          (l0.dropWhile isDigitDot).dropWhile isSpaceCh) :=
        ipWs_some_of hddne (by rw [hdrop]; exact hW)
      rw [core2_eq_tailMU hip]
      refine tailMU_none_head _ (expectCh_none_of_ne ?_)
      intro d t hdt
      rw [hdrop] at hdt
      exact hhead d t hdt
    | cons f fs =>
      have hfmem : f ∈ l0.takeWhile (fun c => !isSpaceCh c) :=
        (List.dropWhile_suffix isDigitDot).subset (by rw [hd]; exact List.mem_cons_self _ _)
      have hnsf : (!isSpaceCh f) = true := by
        have hf := List.mem_takeWhile_imp hfmem
        simpa using hf
      have hspf : isSpaceCh f = false := by
        cases hsp : isSpaceCh f
        · rfl
        · rw [hsp] at hnsf
          cases hnsf
      have hsp0 : (l0.dropWhile isDigitDot).takeWhile isSpaceCh = [] := by
        rw [hdA, hd, List.cons_append]
        exact takeWhile_cons_false _ hspf
      exact core2_none_of_ipWs_none (ipWs_none_of_sp hddne hsp0)

/-- A position matched by the body of pattern 1 is rejected by the body
of pattern 2: after the shared ip-and-spaces segment, pattern 1 found an
ident character where pattern 2 demands `[`. -/
lemma core2_none_of_core1 {l : List Char} {c : Caps}
    (h : core1 l = some c) : core2 l = none := by
  unfold core1 at h
  rw [Option.bind_eq_bind, Option.bind_eq_some] at h
  obtain ⟨p, hip, h⟩ := h
  rw [Option.bind_eq_bind, Option.bind_eq_some] at h
  obtain ⟨r, hid, _⟩ := h
  obtain ⟨hdd, hsp, hp⟩ := ipWs_some_parts hip
  obtain ⟨hI, _, _⟩ := identSeg_some_parts hid
  obtain ⟨d, t, hdt, hident⟩ := head_of_takeWhile_ne hI
  obtain ⟨ds, dt2, hD, hsp2⟩ := head_of_takeWhile_ne hsp
  have hruns := runs_eq_of_stop digitDot_nonspace l (fun d' hd' => by
    rw [hD] at hd'
    cases hd'
    rw [hsp2]
    rfl)
  apply core2_none_shape l
  · rw [hruns.2]
    exact hsp
  · intro d' t' hdt'
    rw [hruns.2] at hdt'
    rw [hp] at hdt
    have : d' :: t' = d :: t := hdt'.symm.trans hdt
    cases this
    exact ident_ne_lbracket _ hident

/-- When the line carries a leading token and pattern 1 matched after
it, pattern 2 also fails at the start of the line. -/
lemma core2_none_afterLead {l r : List Char} {c : Caps}
    (hlead : leadTok l = some r) (hc1 : core1 r = some c) :
    core2 l = none := by
  obtain ⟨hT, hW, hr⟩ := leadTok_some_parts hlead
  apply core2_none_shape l hW
  intro d t hdt
  rw [← hr] at hdt
  unfold core1 at hc1
  rw [Option.bind_eq_bind, Option.bind_eq_some] at hc1
  obtain ⟨p, hip, _⟩ := hc1
  obtain ⟨hdd, _, _⟩ := ipWs_some_parts hip
  obtain ⟨d0, t0, hd0, hdd0⟩ := head_of_takeWhile_ne hdd
  have : d :: t = d0 :: t0 := hdt.symm.trans hd0
  cases this
  exact digitDot_ne_lbracket _ hdd0

/-- When pattern 1 matched at the start of the line, pattern 2 also
fails after the leading token (that position is exactly pattern 1's
first ident field). -/
lemma core2_none_afterLead_of_core1 {l r : List Char} {c : Caps}
    (hlead : leadTok l = some r) (hc1 : core1 l = some c) :
    core2 r = none := by
  unfold core1 at hc1
  rw [Option.bind_eq_bind, Option.bind_eq_some] at hc1
  obtain ⟨p, hip, hc1⟩ := hc1
  rw [Option.bind_eq_bind, Option.bind_eq_some] at hc1
  obtain ⟨r2, hid, _⟩ := hc1
  obtain ⟨hdd, hspD, hp⟩ := ipWs_some_parts hip
  obtain ⟨ds, dt2, hD, hsp2⟩ := head_of_takeWhile_ne hspD
  have hruns := runs_eq_of_stop digitDot_nonspace l (fun d' hd' => by
    rw [hD] at hd'
    cases hd'
    rw [hsp2]
    rfl)
  obtain ⟨_, _, hr⟩ := leadTok_some_parts hlead
  have hrl3 : r = (l.dropWhile isDigitDot).dropWhile isSpaceCh := by
    rw [hr, hruns.2]
  have hp2 : p.2 = (l.dropWhile isDigitDot).dropWhile isSpaceCh := by
    rw [hp]
  rw [← hp2] at hrl3
  subst hrl3
  obtain ⟨hI, hspD2, d, t, hdt, hident⟩ := identSeg_some_parts hid
  obtain ⟨es, et, hE, hspE⟩ := head_of_takeWhile_ne hspD2
  have hruns2 := runs_eq_of_stop ident_nonspace p.2 (fun d' hd' => by
    rw [hE] at hd'
    cases hd'
    rw [hspE]
    rfl)
  apply core2_none_shape p.2
  · rw [hruns2.2]
    exact hspD2
  · intro d' t' hdt'
    rw [hruns2.2] at hdt'
    have : d' :: t' = d :: t := hdt'.symm.trans hdt
    cases this
    exact ident_ne_lbracket _ hident

/-- A line structurally matched by pattern 1 can never be matched by
pattern 2. -/
lemma scanP2_none_of_scanP1 {l : List Char} {c : Caps}
    (h : scanP1 l = some c) : scanP2 l = none := by
  unfold scanP1 at h
  unfold scanP2
  cases hlead : leadTok l with
  | none =>
    rw [hlead] at h
    exact core2_none_of_core1 h
  | some r =>
    rw [hlead] at h
    have h2 : (match core1 r with
      | some c1 => some c1
      | none => core1 l) = some c := h
    show (match core2 r with
      | some c2 => some c2
      | none => core2 l) = none
    cases hc1r : core1 r with
    | some c1 =>
      rw [core2_none_of_core1 hc1r]
      exact core2_none_afterLead hlead hc1r
    | none =>
      rw [hc1r] at h2
      have h3 : core1 l = some c := h2
      rw [core2_none_afterLead_of_core1 hlead h3]
      exact core2_none_of_core1 h3

/-! #### Pattern 3 can never produce an event -/

lemma tail3_url_none {ip l : List Char} {c : Caps}
    (h : tail3 ip l = some c) : c.url = none := by
  unfold tail3 at h
  simp only [Option.bind_eq_bind, Option.bind_eq_some, Option.pure_def,
    Option.some.injEq] at h
  obtain ⟨d, _, r1, _, n, _, r2, _, ua, _, h⟩ := h
  rw [← h]

lemma core3_url_none {l : List Char} {c : Caps}
    (h : core3 l = some c) : c.url = none := by
  unfold core3 at h
  rw [Option.bind_eq_bind, Option.bind_eq_some] at h
  obtain ⟨p, _, h⟩ := h
  rw [Option.bind_eq_bind, Option.bind_eq_some] at h
  obtain ⟨r, _, h⟩ := h
  exact tail3_url_none h

lemma scanP3_url_none {l : List Char} {c : Caps}
    (h : scanP3 l = some c) : c.url = none := by
  unfold scanP3 at h
  cases hlead : leadTok l with
  | none =>
    rw [hlead] at h
    exact core3_url_none h
  | some r =>
    rw [hlead] at h
    have h2 : (match core3 r with
      | some c1 => some c1
      | none => core3 l) = some c := h
    cases hc : core3 r with
    | some c1 =>
      rw [hc] at h2
      have h3 : some c1 = some c := h2
      cases h3
      exact core3_url_none hc
    | none =>
      rw [hc] at h2
      have h3 : core3 l = some c := h2
      exact core3_url_none h3

lemma applyPat_continue {c : Caps} (hg : containsGB c.useragent = false) :
    applyPat c = none := by
  unfold applyPat
  rw [hg]
  rfl

lemma applyPat_noUrl_getD {c : Caps} (hurl : c.url = none) :
    (applyPat c).getD none = none := by
  unfold applyPat
  cases hg : containsGB c.useragent
  · rfl
  · cases hdt : parseDTany c.datetime
    · rfl
    · rw [hurl]
      rfl

/-- The third loop iteration can never return an event: pattern 3 has
no `url` group, so reading `data['url']` raises a `KeyError` that the
outer handler converts to `None`. -/
lemma parseAfter2_none (l : List Char) : parseAfter2 l = none := by
  unfold parseAfter2
  cases h3 : scanP3 l with
  | none => rfl
  | some c => exact applyPat_noUrl_getD (scanP3_url_none h3)

/-- The first pattern of the list that structurally matches the line,
with its captures. -/
def earliestMatch (l : List Char) : Option (Nat × Caps) :=
  match scanP1 l with
  | some c => some (1, c)
  | none =>
    match scanP2 l with
    | some c => some (2, c)
    | none =>
      match scanP3 l with
      | some c => some (3, c)
      | none => none

/-- Claim C2 (amended): when the earliest structurally matching pattern
captures a user agent that fails the googlebot check, `parse_log_line`
returns "no match" for the whole line — although the loop does go on to
try the later patterns, none of them can produce an event in that
situation (pattern 2 cannot match a line pattern 1 matched, and pattern
3 has no url capture). -/
theorem parse_log_line_first_match_gate (s : String)
    (h : (earliestMatch s.toList).map (fun p => containsGB p.2.useragent) =
      some false) :
    parseLogLine s = none := by
  unfold earliestMatch at h
  show (match scanP1 s.toList with
    | some c =>
      match applyPat c with
      | some r => r
      | none => parseAfter1 s.toList
    | none => parseAfter1 s.toList) = none
  cases h1 : scanP1 s.toList with
  | some c =>
    rw [h1] at h
    have hg : containsGB c.useragent = false := by
      have h2 : Option.map (fun p : Nat × Caps => containsGB p.2.useragent)
          (some (1, c)) = some false := h
      simpa using h2
    show (match applyPat c with
      | some r => r
      | none => parseAfter1 s.toList) = none
    rw [applyPat_continue hg]
    show parseAfter1 s.toList = none
    unfold parseAfter1
    rw [scanP2_none_of_scanP1 h1]
    exact parseAfter2_none _
  | none =>
    rw [h1] at h
    show parseAfter1 s.toList = none
    have h2 : Option.map (fun p : Nat × Caps => containsGB p.2.useragent)
        (match scanP2 s.toList with
          | some c => some (2, c)
          | none =>
            match scanP3 s.toList with
            | some c => some (3, c)
            | none => none) = some false := h
    unfold parseAfter1
    cases h3 : scanP2 s.toList with
    | some c =>
      rw [h3] at h2
      have hg : containsGB c.useragent = false := by
        have h4 : Option.map (fun p : Nat × Caps => containsGB p.2.useragent)
            (some (2, c)) = some false := h2
        simpa using h4
      show (match applyPat c with
        | some r => r
        | none => parseAfter2 s.toList) = none
      rw [applyPat_continue hg]
      show parseAfter2 s.toList = none
      exact parseAfter2_none _
    | none =>
      exact parseAfter2_none _

/-- A line pattern 1 matches whose user agent is not a googlebot. -/
def lineNoGB : String :=
  "1.2.3.4 - - [01/Jan/2024:10:20:30] \"GET /p HTTP/1.1\" 200 99 \"-\" \"Mozilla/5.0\""

/-- Claim C2 (counterexample): on a line that pattern 1 structurally
matches with a non-googlebot user agent, the loop does attempt the
later, looser patterns — the instrumented parser records attempts on
patterns 1, 2 and 3 — even though the final result is "no match". -/
theorem parse_log_line_fallthrough_cex :
    (scanP1 lineNoGB.toList).map (fun c => containsGB c.useragent) =
      some false ∧
    parseLogLineTrace lineNoGB = (none, [1, 2, 3]) :=
  ⟨by decide, by decide⟩

/-- Witness for the amended C2 at the concrete non-googlebot line. -/
theorem parse_log_line_first_match_gate_w :
    (earliestMatch lineNoGB.toList).map (fun p => containsGB p.2.useragent) =
      some false ∧
    parseLogLine lineNoGB = none :=
  ⟨by decide, parse_log_line_first_match_gate lineNoGB (by decide)⟩

end Crawl
